import Mathlib

/-!
Verification development for the `surpbayes` gradient-based variational solvers
(`src/surpbayes/bayes/gradient_based/gradient_based_solver.py`).

The two engines, the vanilla `GDBayesSolver` and the robust
`GradientBasedBayesSolver`, are shallowly embedded as explicit state-passing
functions over rational-valued parameter vectors.  External collaborators
(the distribution family `proba_map`, the loss function `fun`, the KL-gradient
oracle `grad_kl`, and the reweighting routine `AccuSampleValDens.grad_score`)
deliver numeric results to `update`; those results are modelled as per-step
oracle inputs (`GDStepInput`, `GBStepInput`).  Fallible operations return
`Except SolverErr`.  Python's `np.inf` value of `prev_score` is modelled as
`none : Option ℚ` (the `+∞` element), every finite score being `some q`.

Collaborator classes of this repository that are not under `src/`
(`AccuSampleVal`, `AccuSampleValDens`, `HistVILog`, `OptimResultVIGB`, the
`BayesSolver` scaffold) are modelled from the spec; their doc comments start
with `Modelled from the spec:`.
-/

deriving instance DecidableEq for Except

/-- Parameter vectors and gradients: flat numeric arrays, modelled as lists of
rationals (the flattened `ProbaParam`). -/
abbrev Vec := List ℚ

/-- Elementwise addition of two numeric arrays (numpy `+` on equal shapes). -/
def vadd (x y : Vec) : Vec := List.zipWith (fun a b => a + b) x y

/-- Elementwise subtraction (numpy `-`). -/
def vsub (x y : Vec) : Vec := List.zipWith (fun a b => a - b) x y

/-- Scalar multiplication of an array (numpy `c * x`). -/
def smul (c : ℚ) (x : Vec) : Vec := x.map (fun a => c * a)

/-- Division of an array by a scalar (numpy `x / c`). -/
def vdiv (x : Vec) (c : ℚ) : Vec := x.map (fun a => a / c)

/-- The zero array of a given length (numpy `np.zeros(shape)`, flattened). -/
def vzero (n : ℕ) : Vec := List.replicate n 0

/-- Arithmetic mean of a list of values (numpy `np.mean`). -/
def qmean (l : List ℚ) : ℚ := l.sum / (l.length : ℚ)

/-- Maximum absolute entry of an array, used by the convergence check. -/
def maxAbs (x : Vec) : ℚ := x.foldl (fun m a => max m |a|) 0

/-- Frozen-coordinate masking: `v_new_flat[index_no_train] = 0.0` from
`GradientBasedBayesSolver.update`.  The fancy-index assignment zeroes exactly
the flat positions listed in `no_train`; `j` is the index of the head of the
remaining array. -/
def maskFrozen (no_train : List ℕ) : ℕ → Vec → Vec
  | _, [] => []
  | j, x :: xs => (if j ∈ no_train then (0 : ℚ) else x) :: maskFrozen no_train (j + 1) xs

/-- `np.tensordot((vals - mval), grads, (0,0))`: the sum over the batch of
`(value_i - m) * grad_i`. -/
def wsum (n : ℕ) (vals : List ℚ) (m : ℚ) (grads : List Vec) : Vec :=
  (List.zipWith (fun v g => smul (v - m) g) vals grads).foldl vadd (vzero n)

/-- Errors that the embedded solver operations can signal (Python exceptions).
`capacityOverflow` is the accumulator's fatal configuration error,
`histUnderflow` the trajectory log's `IndexError`, `stepIndex` the
`IndexError` of `per_step[count]` past the schedule, `shapeError` numpy's
shape-mismatch `ValueError`. -/
inductive SolverErr where
  | capacityOverflow
  | histUnderflow
  | stepIndex
  | shapeError
deriving DecidableEq

/-- One value-only generation: a batch of samples with their loss values
(the data of one `AccuSampleVal.add` call). -/
structure ValGen where
  samples : List Vec
  vals : List ℚ
deriving DecidableEq

/-- One density-tracked generation: a batch of samples with the log-density of
the producing distribution at draw time and the loss values (the data of one
`AccuSampleValDens.add` call). -/
structure DensGen where
  samples : List Vec
  l_dens : List ℚ
  vals : List ℚ
deriving DecidableEq

/-- Forget the density track of a generation. -/
def DensGen.toValGen (g : DensGen) : ValGen := { samples := g.samples, vals := g.vals }

/-- Modelled from the spec: `AccuSampleVal` (class of `surpbayes.accu_xy`, not
under `src/`): stores generations of (sample, value) pairs under a fixed total
sample capacity `n_tot`. -/
structure AccuSampleVal where
  n_tot : ℕ
  gens : List ValGen
deriving DecidableEq

/-- Total number of stored samples of a value accumulator. -/
def AccuSampleVal.n_filled (a : AccuSampleVal) : ℕ :=
  (a.gens.map (fun g => g.samples.length)).sum

/-- Modelled from the spec: `AccuSampleVal.add` appends one new generation and
fails (fatal configuration error, not a silent drop) if appending would exceed
the capacity strictly. -/
def AccuSampleVal.add (a : AccuSampleVal) (g : ValGen) : Except SolverErr AccuSampleVal :=
  if a.n_filled + g.samples.length ≤ a.n_tot then
    .ok { a with gens := a.gens ++ [g] }
  else
    .error .capacityOverflow

/-- Modelled from the spec: `AccuSampleValDens`
(`surpbayes.bayes.gradient_based.accu_sample_dens`, not under `src/`): the
density-tracking accumulator, generations of (sample, log-density, value). -/
structure AccuSampleValDens where
  n_tot : ℕ
  gens : List DensGen
deriving DecidableEq

/-- Total number of stored samples of a density-tracking accumulator. -/
def AccuSampleValDens.n_filled (a : AccuSampleValDens) : ℕ :=
  (a.gens.map (fun g => g.samples.length)).sum

/-- Modelled from the spec: `AccuSampleValDens.add` appends one generation,
failing on capacity overflow exactly like `AccuSampleVal.add`. -/
def AccuSampleValDens.add (a : AccuSampleValDens) (g : DensGen) :
    Except SolverErr AccuSampleValDens :=
  if a.n_filled + g.samples.length ≤ a.n_tot then
    .ok { a with gens := a.gens ++ [g] }
  else
    .error .capacityOverflow

/-- Modelled from the spec: `AccuSampleValDens.suppr_gen g` removes the `g`
most recent generations; tolerant of `g` exceeding the number of stored
generations (removes all). -/
def AccuSampleValDens.suppr_gen (a : AccuSampleValDens) (g : ℕ) : AccuSampleValDens :=
  { a with gens := a.gens.take (a.gens.length - g) }

/-- Modelled from the spec: `AccuSampleValDens.extend_memory extra` raises the
capacity by `extra`. -/
def AccuSampleValDens.extend_memory (a : AccuSampleValDens) (extra : ℕ) : AccuSampleValDens :=
  { a with n_tot := a.n_tot + extra }

/-- One record of the trajectory log `HistVILog`: the (pre-update) parameter
with the variational score, KL value and mean loss of the step. -/
structure HistRecord where
  proba_par : Vec
  score : ℚ
  KL : ℚ
  mean : ℚ
deriving DecidableEq

/-- Modelled from the spec: `HistVILog.proba_pars()` returns the full ordered
parameter history. -/
def proba_pars (l : List HistRecord) : List Vec := l.map (fun r => r.proba_par)

/-- Modelled from the spec: `HistVILog.VI_scores()` returns the full ordered
score history. -/
def VI_scores (l : List HistRecord) : List ℚ := l.map (fun r => r.score)

/-- Modelled from the spec: `HistVILog.VI_scores(n)` returns the scores of the
last `n` records (fewer when fewer exist). -/
def VI_scores_last (l : List HistRecord) (n : ℕ) : List ℚ :=
  (l.map (fun r => r.score)).drop (l.length - n)

/-- Modelled from the spec: `HistVILog.suppr n` removes and returns the `n`
most recent records (oldest-first among the removed) together with the
remaining log; fails with an out-of-range signal if fewer than `n` records
exist. -/
def hist_suppr (l : List HistRecord) (n : ℕ) :
    Except SolverErr (List HistRecord × List HistRecord) :=
  if n ≤ l.length then
    .ok (l.drop (l.length - n), l.take (l.length - n))
  else
    .error .histUnderflow

/-- The `ProbBadGrad` warning of a rejected step, carrying the previous
accepted score (`none` = `+∞`), the attempted score and the uncertainty used
(the data of the warning message emitted by `check_bad_grad`). -/
structure ProbBadGrad where
  prev_score : Option ℚ
  new_score : ℚ
  score_UQ : ℚ
deriving DecidableEq

/-- The index bookkeeping of `GDBayesSolver.__init__`: with no `index_train`
every coordinate is trainable; otherwise `index_no_train` is the complement of
`index_train` in `range n_param` (the source materialises the complement from
an unordered set; only membership is ever used, so the ascending order chosen
here is extensionally faithful). -/
def mkIndexSets (n_param : ℕ) (index_train : Option (List ℕ)) : List ℕ × List ℕ :=
  match index_train with
  | none => ([], List.range n_param)
  | some it => ((List.range n_param).filter (fun i => ¬ i ∈ it), it)

/-- Modelled from the spec: the convergence check of the outer scaffold
(`BayesSolver.check_convergence`, not under `src/`), here the
parameter-movement test against `xtol`; the KL-tolerance component is
orthogonal to every claim treated in this file. -/
def check_convergence (xtol : ℚ) (oldp newp : Vec) : Bool :=
  decide (maxAbs (vsub newp oldp) ≤ xtol)

/-- Run-state of the vanilla gradient engine `GDBayesSolver`: the fields of
the Python object that its `update` reads or writes.  The collaborator
closures (`fun`, `proba_map`, `grad_kl`, `log_dens_der`) are replaced by
per-step oracle inputs. -/
structure GDBayesSolver where
  n_param : ℕ
  post_param : Vec
  eta : ℚ
  xtol : ℚ
  temperature : ℚ
  per_step : List ℕ
  count : ℕ
  converged : Bool
  hist_log : List HistRecord
  accu : AccuSampleVal
  index_train : List ℕ
  index_no_train : List ℕ
deriving DecidableEq

/-- Construction-time configuration of the vanilla engine (the constructor
arguments its `update` depends on; `post_param0` is the starting parameter
resolved by the scaffold from `post_param`/`prior_param`). -/
structure GDConfig where
  n_param : ℕ
  post_param0 : Vec
  temperature : ℚ
  eta : ℚ
  xtol : ℚ
  per_step : List ℕ
  index_train : Option (List ℕ)
deriving DecidableEq

/-- `GDBayesSolver.__init__`: stores `eta`, computes the trainable/frozen
index partition, starts an empty trajectory log and a value accumulator whose
capacity is the total scheduled sample budget (`BayesSolver.set_up_accu`,
modelled from the spec: capacity sized to exactly fit the configured total
sample budget). -/
def GDBayesSolver.init (cfg : GDConfig) : GDBayesSolver :=
  let idx := mkIndexSets cfg.n_param cfg.index_train
  { n_param := cfg.n_param
    post_param := cfg.post_param0
    eta := cfg.eta
    xtol := cfg.xtol
    temperature := cfg.temperature
    per_step := cfg.per_step
    count := 0
    converged := false
    hist_log := []
    accu := { n_tot := cfg.per_step.sum, gens := [] }
    index_train := idx.2
    index_no_train := idx.1 }

/-- Oracle data consumed by one `GDBayesSolver.update` call: the freshly drawn
batch with its loss values (`self.post(n_step)`, `self.loc_fun`), the
per-sample log-density gradients (`der_log(samples)`), and the KL-gradient
oracle result (`self.grad_kl(post_param, n_grad_kl)`). -/
structure GDStepInput where
  samples : List Vec
  vals : List ℚ
  grads : List Vec
  grad_kl : Vec
  kl : ℚ
deriving DecidableEq

/-- `GDBayesSolver.update`: draw and evaluate the batch, accumulate it,
compute the baseline-corrected score-function gradient
`tensordot(vals - mval, grads)/n_step`, combine with the KL gradient, append a
trajectory record carrying the pre-update parameter, and commit
`new_param = param - eta*(grad + temperature*grad_kl)` unconditionally,
incrementing the step counter.  The shape guard models numpy's failure on
mismatched collaborator shapes. -/
def GDBayesSolver.update (st : GDBayesSolver) (inp : GDStepInput) :
    Except SolverErr GDBayesSolver :=
  match st.per_step.get? st.count with
  | none => .error .stepIndex
  | some n_step =>
    match st.accu.add { samples := inp.samples, vals := inp.vals } with
    | .error e => .error e
    | .ok accu1 =>
      if inp.vals.length = inp.grads.length ∧ (∀ g ∈ inp.grads, g.length = st.n_param) ∧
          inp.grad_kl.length = st.n_param then
        let mval := qmean inp.vals
        let grad_expct := vdiv (wsum st.n_param inp.vals mval inp.grads) (n_step : ℚ)
        let step := smul (-st.eta) (vadd grad_expct (smul st.temperature inp.grad_kl))
        let score_VI := mval + st.temperature * inp.kl
        let hist1 := st.hist_log ++
          [{ proba_par := st.post_param, score := score_VI, KL := inp.kl, mean := mval }]
        let new_post_param := vadd st.post_param step
        .ok { st with
          accu := accu1
          hist_log := hist1
          converged := st.converged || check_convergence st.xtol st.post_param new_post_param
          post_param := new_post_param
          count := st.count + 1 }
      else .error .shapeError

/-- Run-state of the robust engine `GradientBasedBayesSolver`: the fields its
`update` reads or writes.  `post_dist_param` is the parameter from which the
cached distribution instance `self._post` was built; `prev_score = none`
encodes `np.inf`. -/
structure GradientBasedBayesSolver where
  n_param : ℕ
  post_param : Vec
  post_dist_param : Vec
  eta : ℚ
  xtol : ℚ
  temperature : ℚ
  per_step : List ℕ
  count : ℕ
  converged : Bool
  hist_log : List HistRecord
  bin_log : List HistRecord
  index_train : List ℕ
  index_no_train : List ℕ
  momentum : ℚ
  refuse_factor : ℚ
  v : Vec
  prev_score : Option ℚ
  k : Option ℕ
  gen_decay : ℚ
  corr_eta : ℚ
  accu : AccuSampleValDens
  stable_accu : AccuSampleVal
  ini_post_param : Vec
deriving DecidableEq

/-- Construction-time configuration of the robust engine (the constructor
arguments its behaviour depends on). -/
structure GBConfig where
  n_param : ℕ
  post_param0 : Vec
  temperature : ℚ
  prev_eval : Option AccuSampleValDens
  index_train : Option (List ℕ)
  eta : ℚ
  per_step : List ℕ
  momentum : ℚ
  refuse_conf : ℚ
  corr_eta : ℚ
  xtol : ℚ
  k : Option ℕ
  gen_decay : ℚ
deriving DecidableEq

/-- `GradientBasedBayesSolver.set_up_accu`: with no previous evaluations,
create the density-tracking accumulator with capacity `sum(per_step)`;
otherwise reuse the supplied accumulator and raise its capacity by
`sum(per_step)` via `extend_memory`. -/
def GradientBasedBayesSolver.set_up_accu (sum_per_step : ℕ)
    (prev_eval : Option AccuSampleValDens) : AccuSampleValDens :=
  match prev_eval with
  | none => { n_tot := sum_per_step, gens := [] }
  | some a => a.extend_memory sum_per_step

/-- `GradientBasedBayesSolver.__init__`: stores `eta * (1 - momentum)` as the
learning rate, `refuse_factor = norm.ppf(refuse_conf)` (the inverse
standard-normal CDF is the external `scipy.stats.norm` collaborator, passed
here as the function `normPpf`), a zero momentum vector, `prev_score = +∞`
(`none`), empty primary and bin logs, the two accumulators of `set_up_accu`,
and a backup copy of the initial parameter. -/
def GradientBasedBayesSolver.init (normPpf : ℚ → ℚ) (cfg : GBConfig) :
    GradientBasedBayesSolver :=
  let idx := mkIndexSets cfg.n_param cfg.index_train
  { n_param := cfg.n_param
    post_param := cfg.post_param0
    post_dist_param := cfg.post_param0
    eta := cfg.eta * (1 - cfg.momentum)
    xtol := cfg.xtol
    temperature := cfg.temperature
    per_step := cfg.per_step
    count := 0
    converged := false
    hist_log := []
    bin_log := []
    index_train := idx.2
    index_no_train := idx.1
    momentum := cfg.momentum
    refuse_factor := normPpf cfg.refuse_conf
    v := vzero cfg.n_param
    prev_score := none
    k := cfg.k
    gen_decay := cfg.gen_decay
    corr_eta := cfg.corr_eta
    accu := GradientBasedBayesSolver.set_up_accu cfg.per_step.sum cfg.prev_eval
    stable_accu := { n_tot := cfg.per_step.sum, gens := [] }
    ini_post_param := cfg.post_param0 }

/-- Oracle data consumed by one `GradientBasedBayesSolver.update` call: the
freshly drawn density-tracked generation (`gen_eval_samp`), the reweighted
score gradient, mean score and uncertainty delivered by
`accu.grad_score` (`get_score_grad`), and the KL-gradient oracle result. -/
structure GBStepInput where
  gen : DensGen
  der_score : Vec
  m_score : ℚ
  score_UQ : ℚ
  der_KL : Vec
  kl : ℚ
deriving DecidableEq

/-- `GradientBasedBayesSolver.check_bad_grad`: the step is bad iff
`score_VI - prev_score > refuse_factor * score_UQ` (false whenever
`prev_score` is `+∞`, since `score_VI - ∞ = -∞`); exactly when bad, a
`ProbBadGrad` warning carrying the previous and attempted scores and the
uncertainty is emitted (the emitted warning is the second component). -/
def GradientBasedBayesSolver.check_bad_grad (st : GradientBasedBayesSolver)
    (score_VI score_UQ : ℚ) : Bool × Option ProbBadGrad :=
  let is_bad : Bool :=
    match st.prev_score with
    | none => false
    | some p => decide (score_VI - p > st.refuse_factor * score_UQ)
  (is_bad,
   if is_bad then
     some { prev_score := st.prev_score, new_score := score_VI, score_UQ := score_UQ }
   else none)

/-- The state committed by the rollback ("bad") branch of
`GradientBasedBayesSolver.update`, given the post-add accumulators and the
records removed from / remaining in the primary log: zero momentum, learning
rate shrunk by `corr_eta`, the 2 most recent generations dropped from the
density accumulator, the removed record appended to the bin log, and the run
parameter, cached distribution and previous score restored from the last
surviving record (or the initial parameter and `+∞` if none survives). -/
def rollbackCommit (st : GradientBasedBayesSolver) (accu1 : AccuSampleValDens)
    (stable1 : AccuSampleVal) (removed hist1 : List HistRecord) :
    GradientBasedBayesSolver :=
  let base := { st with
    v := vzero st.n_param
    eta := st.eta * st.corr_eta
    accu := accu1.suppr_gen 2
    stable_accu := stable1
    hist_log := hist1
    bin_log := st.bin_log ++ removed
    count := st.count + 1 }
  match hist1.getLast? with
  | some r =>
    { base with
      post_param := r.proba_par
      post_dist_param := r.proba_par
      prev_score := some r.score }
  | none =>
    { base with
      post_param := st.ini_post_param
      post_dist_param := st.ini_post_param
      prev_score := none }

/-- The state committed by the accepted ("good") branch of
`GradientBasedBayesSolver.update`: append a trajectory record carrying the
pre-update parameter, mask the raw increment on frozen coordinates, blend with
momentum, commit the new parameter, the new momentum vector, the new previous
score, and refresh the cached distribution. -/
def acceptCommit (st : GradientBasedBayesSolver) (inp : GBStepInput)
    (accu1 : AccuSampleValDens) (stable1 : AccuSampleVal) (score_VI : ℚ) :
    GradientBasedBayesSolver :=
  let hist1 := st.hist_log ++
    [{ proba_par := st.post_param, score := score_VI, KL := inp.kl, mean := inp.m_score }]
  let raw := smul (-st.eta) (vadd inp.der_score (smul st.temperature inp.der_KL))
  let v1 := vadd (maskFrozen st.index_no_train 0 raw) (smul st.momentum st.v)
  let newp := vadd st.post_param v1
  { st with
    accu := accu1
    stable_accu := stable1
    hist_log := hist1
    v := v1
    converged := st.converged || check_convergence st.xtol st.post_param newp
    post_param := newp
    post_dist_param := newp
    prev_score := some score_VI
    count := st.count + 1 }

/-- `GradientBasedBayesSolver.update`: draw the scheduled generation and add
it to both accumulators (`gen_sample`), form
`score_VI = m_score + temperature * kl`, run the bad-step test, and commit the
rollback branch or the accepted branch; the step counter increments in both.
The returned option is the `ProbBadGrad` warning (emitted exactly on bad
steps).  The shape guard of the accepted branch models numpy's failure on
mismatched collaborator shapes. -/
def GradientBasedBayesSolver.update (st : GradientBasedBayesSolver) (inp : GBStepInput) :
    Except SolverErr (GradientBasedBayesSolver × Option ProbBadGrad) :=
  match st.per_step.get? st.count with
  | none => .error .stepIndex
  | some _n_step =>
    match st.accu.add inp.gen with
    | .error e => .error e
    | .ok accu1 =>
      match st.stable_accu.add inp.gen.toValGen with
      | .error e => .error e
      | .ok stable1 =>
        let score_VI := inp.m_score + st.temperature * inp.kl
        let cb := st.check_bad_grad score_VI inp.score_UQ
        if cb.1 then
          match hist_suppr st.hist_log 1 with
          | .error e => .error e
          | .ok pr => .ok (rollbackCommit st accu1 stable1 pr.1 pr.2, cb.2)
        else
          if inp.der_score.length = st.n_param ∧ inp.der_KL.length = st.n_param then
            .ok (acceptCommit st inp accu1 stable1 score_VI, cb.2)
          else .error .shapeError

/-- A run of the robust engine: the outer scaffold calls `update` once per
step; a raised error aborts the run. -/
def runGB (st : GradientBasedBayesSolver) :
    List GBStepInput → Except SolverErr GradientBasedBayesSolver
  | [] => .ok st
  | inp :: inps =>
    match st.update inp with
    | .error e => .error e
    | .ok pr => runGB pr.1 inps

/-- Modelled from the spec: the result record `OptimResultVIGB`
(`surpbayes.bayes.gradient_based.optim_result_vi_gb`, not under `src/`), with
exactly the fields that `process_result` passes to its constructor. -/
structure OptimResultVIGB where
  opti_param : Vec
  converged : Bool
  opti_score : ℚ
  hist_param : List Vec
  hist_score : List ℚ
  end_param : Vec
  log_vi : List HistRecord
  bin_log_vi : List HistRecord
  sample_val : AccuSampleValDens
deriving DecidableEq

/-- `GradientBasedBayesSolver.process_result`: assemble the final result from
the run state; `opti_score` is `hist_log.VI_scores(1)[0]`, whose indexing of
an empty history signals `histUnderflow` (the Python `IndexError`, not caught
here). -/
def GradientBasedBayesSolver.process_result (st : GradientBasedBayesSolver) :
    Except SolverErr OptimResultVIGB :=
  match (VI_scores_last st.hist_log 1).head? with
  | none => .error .histUnderflow
  | some s =>
    .ok { opti_param := st.post_param
          converged := st.converged
          opti_score := s
          hist_param := proba_pars st.hist_log
          hist_score := VI_scores st.hist_log
          end_param := st.post_param
          log_vi := st.hist_log
          bin_log_vi := st.bin_log
          sample_val := st.accu }

/-- Modelled from the spec: the end-of-step report of the scaffold
(`BayesSolver.msg_end_step`, not under `src/`) prints the most recent logged
score and raises the log's `IndexError` when none exists. -/
def msg_end_step_base (st : GradientBasedBayesSolver) : Except SolverErr ℚ :=
  match (VI_scores_last st.hist_log 1).head? with
  | none => .error .histUnderflow
  | some s => .ok s

/-- `GradientBasedBayesSolver.msg_end_step`: the override catches the
`IndexError` of the base report and prints a no-score message instead, so the
reporting never fails. -/
def GradientBasedBayesSolver.msg_end_step (st : GradientBasedBayesSolver) :
    Except SolverErr (Option ℚ) :=
  match msg_end_step_base st with
  | .ok s => .ok (some s)
  | .error _ => .ok none

/-- Stand-in for the external `scipy.stats.norm.ppf` oracle in concrete runs
(any fixed function works: the solver only stores its value). -/
def ppfEx : ℚ → ℚ := fun _ => 2

/-- A concrete robust-engine configuration: 1 parameter, two scheduled steps
of one sample each, no frozen coordinates, temperature 0. -/
def exCfg : GBConfig :=
  { n_param := 1, post_param0 := [0], temperature := 0, prev_eval := none,
    index_train := none, eta := 1, per_step := [1, 1], momentum := 0,
    refuse_conf := 99 / 100, corr_eta := 1 / 2, xtol := 0, k := none, gen_decay := 0 }

/-- A concrete generation of one sample. -/
def exGen1 : DensGen := { samples := [[0]], l_dens := [0], vals := [3] }

/-- A second concrete generation of one sample. -/
def exGen2 : DensGen := { samples := [[1]], l_dens := [0], vals := [9] }

/-- A step input that the engine accepts (first step: `prev_score = +∞`). -/
def exInpGood : GBStepInput :=
  { gen := exGen1, der_score := [1], m_score := 0, score_UQ := 1, der_KL := [0], kl := 0 }

/-- A step input that the engine rejects after `exInpGood`
(score jumps from 0 to 10 with uncertainty 1 and `refuse_factor = 2`). -/
def exInpBad : GBStepInput :=
  { gen := exGen2, der_score := [1], m_score := 10, score_UQ := 1, der_KL := [0], kl := 0 }

/-- The concrete state after the first (accepted) step of the `exCfg` run. -/
def exSt1 : GradientBasedBayesSolver :=
  match (GradientBasedBayesSolver.init ppfEx exCfg).update exInpGood with
  | .ok pr => pr.1
  | .error _ => GradientBasedBayesSolver.init ppfEx exCfg

/-- The concrete state after the second (rejected) step of the `exCfg` run:
the rollback exhausts the primary log. -/
def exSt2 : GradientBasedBayesSolver :=
  match exSt1.update exInpBad with
  | .ok pr => pr.1
  | .error _ => exSt1

/-- The warning emitted at the rejected second step of the `exCfg` run. -/
def exWarnBad : ProbBadGrad := { prev_score := some 0, new_score := 10, score_UQ := 1 }

/-- A concrete vanilla-engine configuration whose single coordinate is frozen
(`index_train = []`). -/
def exGDCfg : GDConfig :=
  { n_param := 1, post_param0 := [0], temperature := 0, eta := 1, xtol := 0,
    per_step := [2], index_train := some [] }

/-- A concrete vanilla step input with a nonzero score-function gradient. -/
def exGDInp : GDStepInput :=
  { samples := [[0], [0]], vals := [0, 2], grads := [[1], [3]], grad_kl := [0], kl := 0 }

/-- The concrete state after one vanilla step from `exGDCfg`. -/
def exGDSt1 : GDBayesSolver :=
  match (GDBayesSolver.init exGDCfg).update exGDInp with
  | .ok s => s
  | .error _ => GDBayesSolver.init exGDCfg

/-- Claim-side definition for the refinement comparison (spec 4.4 step 8 and
4.5 step 6): the vanilla update rule
`param - eta * (grad_loss + temperature * grad_kl)`. -/
def spec_vanilla_step (eta temperature : ℚ) (param grad_loss grad_kl : Vec) : Vec :=
  vadd param (smul (-eta) (vadd grad_loss (smul temperature grad_kl)))

/-- A robust-engine configuration with two coordinates of which index 0 is
frozen (`index_train = [1]`). -/
def exCfgFrozen : GBConfig :=
  { exCfg with n_param := 2, post_param0 := [0, 0], index_train := some [1] }

/-- A step input for the two-coordinate frozen configuration. -/
def exInpFrozen : GBStepInput :=
  { gen := exGen1, der_score := [1, 1], m_score := 0, score_UQ := 1,
    der_KL := [0, 0], kl := 0 }

/-- The state after one accepted step of the frozen-coordinate run. -/
def exStF : GradientBasedBayesSolver :=
  match runGB (GradientBasedBayesSolver.init ppfEx exCfgFrozen) [exInpFrozen] with
  | .ok s => s
  | .error _ => GradientBasedBayesSolver.init ppfEx exCfgFrozen

/-- A three-step configuration: accepted step, rejected step, accepted step. -/
def exCfg3 : GBConfig := { exCfg with per_step := [1, 1, 1] }

/-- A third concrete generation of one sample. -/
def exGen3 : DensGen := { samples := [[2]], l_dens := [0], vals := [5] }

/-- The third step input of the `exCfg3` run (accepted after the exhausted
rollback). -/
def exInp3 : GBStepInput :=
  { gen := exGen3, der_score := [1], m_score := 1, score_UQ := 1, der_KL := [0], kl := 0 }

/-- The state after the three-step run accepted/rejected/accepted. -/
def exSt3 : GradientBasedBayesSolver :=
  match runGB (GradientBasedBayesSolver.init ppfEx exCfg3) [exInpGood, exInpBad, exInp3] with
  | .ok s => s
  | .error _ => GradientBasedBayesSolver.init ppfEx exCfg3

/-- The result record assembled at the end of the three-step run. -/
def exRes3 : OptimResultVIGB :=
  match exSt3.process_result with
  | .ok r => r
  | .error _ =>
    { opti_param := [], converged := false, opti_score := 0, hist_param := [],
      hist_score := [], end_param := [], log_vi := [], bin_log_vi := [],
      sample_val := { n_tot := 0, gens := [] } }

/-- The frozen-coordinate run invariant of the robust engine at coordinate
`i`: the committed parameter, every logged parameter and the backup parameter
agree with the initial parameter `p0` at `i`, the momentum vector is zero
there, and all these vectors have the full parameter length `n`. -/
def FrozenInv (p0 : Vec) (n i : ℕ) (st : GradientBasedBayesSolver) : Prop :=
  st.n_param = n ∧ p0.length = n ∧ i < n ∧ i ∈ st.index_no_train ∧
  st.ini_post_param = p0 ∧
  st.post_param.length = n ∧ st.post_param.get? i = p0.get? i ∧
  st.v.length = n ∧ st.v.get? i = some 0 ∧
  (∀ r ∈ st.hist_log, r.proba_par.length = n ∧ r.proba_par.get? i = p0.get? i)

/-- The capacity run invariant of the robust engine: each accumulator can
still absorb the whole remaining scheduled sample budget. -/
def CapInv (st : GradientBasedBayesSolver) : Prop :=
  st.accu.n_filled + (st.per_step.drop st.count).sum ≤ st.accu.n_tot ∧
  st.stable_accu.n_filled + (st.per_step.drop st.count).sum ≤ st.stable_accu.n_tot

/-- The last element of a list, when it exists, is a member. -/
theorem getLast?_mem_self {α : Type} {l : List α} {r : α} (h : l.getLast? = some r) :
    r ∈ l := by
  have hr : r ∈ l.getLast? := by rw [h]; rfl
  obtain ⟨hne, heq⟩ := List.mem_getLast?_eq_getLast hr
  rw [heq]
  exact List.getLast_mem hne

/-- Componentwise description of `vadd` at an index present in both arrays. -/
theorem vadd_get? : ∀ (x y : Vec) (i : ℕ) (a b : ℚ),
    x.get? i = some a → y.get? i = some b → (vadd x y).get? i = some (a + b) := by
  intro x
  induction x with
  | nil => intro y i a b ha; simp at ha
  | cons c xs ih =>
    intro y i a b ha hb
    cases y with
    | nil => simp at hb
    | cons d ys =>
      cases i with
      | zero =>
        simp only [List.get?] at ha hb
        cases ha; cases hb
        simp [vadd]
      | succ j =>
        simp only [List.get?] at ha hb
        simpa [vadd] using ih ys j a b ha hb

/-- Componentwise description of `smul`. -/
theorem smul_get? (c : ℚ) (x : Vec) (i : ℕ) :
    (smul c x).get? i = Option.map (fun a => c * a) (x.get? i) := by
  simp [smul, List.get?_map]

/-- The length of `vadd` is the minimum of the lengths. -/
theorem vadd_length (x y : Vec) : (vadd x y).length = min x.length y.length := by
  simp [vadd, List.length_zipWith]

/-- `smul` preserves length. -/
theorem smul_length (c : ℚ) (x : Vec) : (smul c x).length = x.length := by
  simp [smul]

/-- Entries of the zero vector. -/
theorem vzero_get? {n i : ℕ} (h : i < n) : (vzero n).get? i = some 0 := by
  simp [vzero, List.get?_eq_getElem?, List.getElem?_replicate, h]

/-- The length of the zero vector. -/
theorem vzero_length (n : ℕ) : (vzero n).length = n := by
  simp [vzero]

/-- `maskFrozen` preserves length. -/
theorem maskFrozen_length (no : List ℕ) : ∀ (x : Vec) (j : ℕ),
    (maskFrozen no j x).length = x.length := by
  intro x
  induction x with
  | nil => intro j; rfl
  | cons c xs ih => intro j; simp [maskFrozen, ih]

/-- `maskFrozen` zeroes every listed position. -/
theorem maskFrozen_get?_mem (no : List ℕ) : ∀ (x : Vec) (j i : ℕ),
    i < x.length → (j + i) ∈ no → (maskFrozen no j x).get? i = some 0 := by
  intro x
  induction x with
  | nil => intro j i hi; simp at hi
  | cons c xs ih =>
    intro j i hi hmem
    cases i with
    | zero =>
      simp only [Nat.add_zero] at hmem
      simp [maskFrozen, hmem]
    | succ i' =>
      have : (j + 1) + i' ∈ no := by
        have : j + (i' + 1) = (j + 1) + i' := by omega
        rwa [this] at hmem
      simpa [maskFrozen] using ih (j + 1) i' (by simpa using Nat.lt_of_succ_lt_succ hi) this

/-- With no frozen coordinates the mask is the identity. -/
theorem maskFrozen_nil : ∀ (x : Vec) (j : ℕ), maskFrozen [] j x = x := by
  intro x
  induction x with
  | nil => intro j; rfl
  | cons c xs ih => intro j; simp [maskFrozen, ih]

/-- Adding `smul 0 y` to an array of no greater length is the identity. -/
theorem vadd_smul_zero : ∀ (x y : Vec), x.length ≤ y.length → vadd x (smul 0 y) = x := by
  intro x
  induction x with
  | nil => intro y _; rfl
  | cons c xs ih =>
    intro y hlen
    cases y with
    | nil => simp at hlen
    | cons d ys => simp [vadd, smul, List.zipWith] at ih ⊢; exact ih ys (by simpa using hlen)

/-- The sum of a prefix is at most the sum of the list (for ℕ entries). -/
theorem sum_take_le (l : List ℕ) (k : ℕ) : (l.take k).sum ≤ l.sum := by
  conv_rhs => rw [← List.take_append_drop k l]
  rw [List.sum_append]
  exact Nat.le_add_right _ _

/-- The sum of the tail from position `c` splits off the element at `c`. -/
theorem sum_drop_get? : ∀ (l : List ℕ) (c n : ℕ), l.get? c = some n →
    (l.drop c).sum = n + (l.drop (c + 1)).sum := by
  intro l
  induction l with
  | nil => intro c n h; simp at h
  | cons a l' ih =>
    intro c n h
    cases c with
    | zero => simp only [List.get?] at h; cases h; simp
    | succ c' => simp only [List.get?] at h; simpa using ih c' n h

/-- Case analysis of a successful `GradientBasedBayesSolver.update`: the
schedule had an entry, both accumulator adds succeeded, the returned warning
is the one of `check_bad_grad`, and the committed state is the rollback commit
(bad step, with at least one logged record) or the accept commit (good step,
with well-shaped gradients). -/
theorem GBupdate_ok_elim {st st' : GradientBasedBayesSolver} {inp : GBStepInput}
    {w : Option ProbBadGrad} (h : st.update inp = .ok (st', w)) :
    ∃ n_step accu1 stable1,
      st.per_step.get? st.count = some n_step ∧
      st.accu.add inp.gen = .ok accu1 ∧
      st.stable_accu.add inp.gen.toValGen = .ok stable1 ∧
      w = (st.check_bad_grad (inp.m_score + st.temperature * inp.kl) inp.score_UQ).2 ∧
      (((st.check_bad_grad (inp.m_score + st.temperature * inp.kl) inp.score_UQ).1 = true ∧
          1 ≤ st.hist_log.length ∧
          st' = rollbackCommit st accu1 stable1
            (st.hist_log.drop (st.hist_log.length - 1))
            (st.hist_log.take (st.hist_log.length - 1))) ∨
        ((st.check_bad_grad (inp.m_score + st.temperature * inp.kl) inp.score_UQ).1 = false ∧
          inp.der_score.length = st.n_param ∧ inp.der_KL.length = st.n_param ∧
          st' = acceptCommit st inp accu1 stable1
            (inp.m_score + st.temperature * inp.kl))) := by
  unfold GradientBasedBayesSolver.update at h
  cases hps : st.per_step.get? st.count with
  | none => rw [hps] at h; cases h
  | some n_step =>
    rw [hps] at h
    cases hadd : st.accu.add inp.gen with
    | error e => rw [hadd] at h; cases h
    | ok accu1 =>
      rw [hadd] at h
      cases hadd2 : st.stable_accu.add inp.gen.toValGen with
      | error e => rw [hadd2] at h; cases h
      | ok stable1 =>
        rw [hadd2] at h
        dsimp only at h
        refine ⟨n_step, accu1, stable1, rfl, rfl, rfl, ?_⟩
        by_cases hbad :
            (st.check_bad_grad (inp.m_score + st.temperature * inp.kl) inp.score_UQ).1 = true
        · rw [if_pos hbad] at h
          cases hsup : hist_suppr st.hist_log 1 with
          | error e => rw [hsup] at h; cases h
          | ok pr =>
            rw [hsup] at h
            unfold hist_suppr at hsup
            by_cases hlen : 1 ≤ st.hist_log.length
            · rw [if_pos hlen] at hsup
              cases hsup
              cases h
              exact ⟨rfl, Or.inl ⟨hbad, hlen, rfl⟩⟩
            · rw [if_neg hlen] at hsup; cases hsup
        · rw [if_neg hbad] at h
          by_cases hsh : inp.der_score.length = st.n_param ∧ inp.der_KL.length = st.n_param
          · rw [if_pos hsh] at h
            cases h
            exact ⟨rfl, Or.inr ⟨Bool.not_eq_true _ ▸ hbad, hsh.1, hsh.2, rfl⟩⟩
          · rw [if_neg hsh] at h; cases h

/-- Fields that every successful `GradientBasedBayesSolver.update` leaves
untouched, plus the step-counter increment and the stable-accumulator
append (both branches). -/
theorem GBupdate_ok_frame {st st' : GradientBasedBayesSolver} {inp : GBStepInput}
    {w : Option ProbBadGrad} (h : st.update inp = .ok (st', w)) :
    st'.n_param = st.n_param ∧
    st'.per_step = st.per_step ∧
    st'.count = st.count + 1 ∧
    st'.index_train = st.index_train ∧
    st'.index_no_train = st.index_no_train ∧
    st'.temperature = st.temperature ∧
    st'.momentum = st.momentum ∧
    st'.refuse_factor = st.refuse_factor ∧
    st'.corr_eta = st.corr_eta ∧
    st'.xtol = st.xtol ∧
    st'.k = st.k ∧
    st'.gen_decay = st.gen_decay ∧
    st'.ini_post_param = st.ini_post_param ∧
    st'.stable_accu.n_tot = st.stable_accu.n_tot ∧
    st'.stable_accu.gens = st.stable_accu.gens ++ [inp.gen.toValGen] := by
  obtain ⟨n_step, accu1, stable1, hps, hadd, hadd2, hw, hbr⟩ := GBupdate_ok_elim h
  have hstable : stable1.n_tot = st.stable_accu.n_tot ∧
      stable1.gens = st.stable_accu.gens ++ [inp.gen.toValGen] := by
    unfold AccuSampleVal.add at hadd2
    by_cases hle : st.stable_accu.n_filled + inp.gen.toValGen.samples.length ≤ st.stable_accu.n_tot
    · rw [if_pos hle] at hadd2; cases hadd2; exact ⟨rfl, rfl⟩
    · rw [if_neg hle] at hadd2; cases hadd2
  rcases hbr with ⟨_, _, hst⟩ | ⟨_, _, _, hst⟩
  · subst hst
    unfold rollbackCommit
    cases hlast : (st.hist_log.take (st.hist_log.length - 1)).getLast? <;>
      simp [hlast, hstable.1, hstable.2]
  · subst hst
    unfold acceptCommit
    simp [hstable.1, hstable.2]

/-- Case analysis of a successful `GDBayesSolver.update`: the schedule had an
entry, the accumulator add succeeded, the collaborator shapes matched, and the
committed state is fully determined. -/
theorem GDupdate_ok_elim {st st' : GDBayesSolver} {inp : GDStepInput}
    (h : st.update inp = .ok st') :
    ∃ n_step accu1,
      st.per_step.get? st.count = some n_step ∧
      st.accu.add { samples := inp.samples, vals := inp.vals } = .ok accu1 ∧
      inp.vals.length = inp.grads.length ∧
      (∀ g ∈ inp.grads, g.length = st.n_param) ∧
      inp.grad_kl.length = st.n_param ∧
      st' = { st with
        accu := accu1
        hist_log := st.hist_log ++
          [{ proba_par := st.post_param,
             score := qmean inp.vals + st.temperature * inp.kl,
             KL := inp.kl, mean := qmean inp.vals }]
        converged := st.converged || check_convergence st.xtol st.post_param
          (vadd st.post_param (smul (-st.eta)
            (vadd (vdiv (wsum st.n_param inp.vals (qmean inp.vals) inp.grads) (n_step : ℚ))
              (smul st.temperature inp.grad_kl))))
        post_param := vadd st.post_param (smul (-st.eta)
          (vadd (vdiv (wsum st.n_param inp.vals (qmean inp.vals) inp.grads) (n_step : ℚ))
            (smul st.temperature inp.grad_kl)))
        count := st.count + 1 } := by
  unfold GDBayesSolver.update at h
  cases hps : st.per_step.get? st.count with
  | none => rw [hps] at h; cases h
  | some n_step =>
    rw [hps] at h
    cases hadd : st.accu.add { samples := inp.samples, vals := inp.vals } with
    | error e => rw [hadd] at h; cases h
    | ok accu1 =>
      rw [hadd] at h
      dsimp only at h
      by_cases hsh : inp.vals.length = inp.grads.length ∧
          (∀ g ∈ inp.grads, g.length = st.n_param) ∧ inp.grad_kl.length = st.n_param
      · rw [if_pos hsh] at h
        cases h
        exact ⟨n_step, accu1, rfl, rfl, hsh.1, hsh.2.1, hsh.2.2, rfl⟩
      · rw [if_neg hsh] at h; cases h

section ClaimProofs

attribute [local semireducible] Rat.add Rat.sub Rat.mul Rat.inv

/-- C2: At every step of the robust engine, the step is classified bad iff
`variational_score - previous_accepted_score > refuse_factor * score_uncertainty`
(reading the difference in the extended reals: with `previous_accepted_score =
+∞` the test is false); `refuse_factor` is the inverse standard-normal CDF of
`refuse_conf`, computed once at construction and never modified by `update`;
and exactly when the step is bad a non-fatal `ProbBadGrad` warning carrying
the previous and attempted scores and the uncertainty is emitted, alongside a
normal (non-exception) return. -/
theorem C2_bad_step_test (normPpf : ℚ → ℚ) (cfg : GBConfig)
    (st st' : GradientBasedBayesSolver) (inp : GBStepInput) (w : Option ProbBadGrad)
    (score_VI score_UQ : ℚ)
    (h : st.update inp = .ok (st', w)) :
    (GradientBasedBayesSolver.init normPpf cfg).refuse_factor = normPpf cfg.refuse_conf ∧
    st'.refuse_factor = st.refuse_factor ∧
    ((st.check_bad_grad score_VI score_UQ).1 = true ↔
      ∃ p : ℚ, st.prev_score = some p ∧ score_VI - p > st.refuse_factor * score_UQ) ∧
    ((st.check_bad_grad score_VI score_UQ).2.isSome = (st.check_bad_grad score_VI score_UQ).1) ∧
    ((st.check_bad_grad score_VI score_UQ).1 = true →
      (st.check_bad_grad score_VI score_UQ).2 =
        some { prev_score := st.prev_score, new_score := score_VI, score_UQ := score_UQ }) ∧
    w = (st.check_bad_grad (inp.m_score + st.temperature * inp.kl) inp.score_UQ).2 := by
  obtain ⟨n_step, accu1, stable1, _, _, _, hw, _⟩ := GBupdate_ok_elim h
  refine ⟨rfl, (GBupdate_ok_frame h).2.2.2.2.2.2.2.1, ?_, ?_, ?_, hw⟩
  · unfold GradientBasedBayesSolver.check_bad_grad
    cases hprev : st.prev_score with
    | none => simp [hprev]
    | some p => simp [hprev]
  · unfold GradientBasedBayesSolver.check_bad_grad
    cases hprev : st.prev_score with
    | none => simp
    | some p =>
      by_cases hgt : score_VI - p > st.refuse_factor * score_UQ
      · simp [hgt]
      · simp [hgt]
  · intro hbad
    unfold GradientBasedBayesSolver.check_bad_grad at hbad ⊢
    simp only at hbad ⊢
    rw [if_pos hbad]

/-- Witness for C2 at the concrete rejected step of the `exCfg` run. -/
theorem C2_bad_step_test_witness :
    exSt1.update exInpBad = .ok (exSt2, some exWarnBad) ∧
    ((GradientBasedBayesSolver.init ppfEx exCfg).refuse_factor = ppfEx exCfg.refuse_conf ∧
      exSt2.refuse_factor = exSt1.refuse_factor ∧
      ((exSt1.check_bad_grad 10 1).1 = true ↔
        ∃ p : ℚ, exSt1.prev_score = some p ∧ 10 - p > exSt1.refuse_factor * 1) ∧
      ((exSt1.check_bad_grad 10 1).2.isSome = (exSt1.check_bad_grad 10 1).1) ∧
      ((exSt1.check_bad_grad 10 1).1 = true →
        (exSt1.check_bad_grad 10 1).2 =
          some { prev_score := exSt1.prev_score, new_score := 10, score_UQ := 1 }) ∧
      some exWarnBad =
        (exSt1.check_bad_grad (exInpBad.m_score + exSt1.temperature * exInpBad.kl)
          exInpBad.score_UQ).2) :=
  ⟨by decide,
   C2_bad_step_test ppfEx exCfg exSt1 exSt2 exInpBad (some exWarnBad) 10 1 (by decide)⟩

/-- C1: when a step of the robust engine is classified bad, `update` performs
the full rollback: momentum is reset to the zero vector; the stored learning
rate is multiplied by `corr_eta` (and no `update` ever restores it: every step
either keeps the rate or multiplies it by `corr_eta` again); the 2 most recent
generations are removed from the density-tracking accumulator (which had just
received the new generation); the most recent primary-log record (exactly one)
is removed and appended to the bin log; and the run parameter, cached
distribution and `previous_accepted_score` are restored from the last
surviving primary-log record, or, if none survives, from the run's initial
parameter with `previous_accepted_score = +∞` (`none`). -/
theorem C1_rollback (st st' : GradientBasedBayesSolver) (inp : GBStepInput)
    (w : Option ProbBadGrad)
    (h : st.update inp = .ok (st', w))
    (hbad : (st.check_bad_grad (inp.m_score + st.temperature * inp.kl) inp.score_UQ).1 = true) :
    st'.v = vzero st.n_param ∧
    st'.eta = st.eta * st.corr_eta ∧
    st'.corr_eta = st.corr_eta ∧
    (∀ st2 st2' : GradientBasedBayesSolver, ∀ inp2 w2,
      st2.update inp2 = .ok (st2', w2) →
      st2'.eta = st2.eta ∨ st2'.eta = st2.eta * st2.corr_eta) ∧
    (∀ a1, st.accu.add inp.gen = .ok a1 → st'.accu = a1.suppr_gen 2) ∧
    st'.hist_log = st.hist_log.take (st.hist_log.length - 1) ∧
    st'.bin_log = st.bin_log ++ st.hist_log.drop (st.hist_log.length - 1) ∧
    (st.hist_log.drop (st.hist_log.length - 1)).length = 1 ∧
    (∀ r, st'.hist_log.getLast? = some r →
      st'.post_param = r.proba_par ∧ st'.post_dist_param = r.proba_par ∧
        st'.prev_score = some r.score) ∧
    (st'.hist_log.getLast? = none →
      st'.post_param = st.ini_post_param ∧ st'.post_dist_param = st.ini_post_param ∧
        st'.prev_score = none) := by
  obtain ⟨n_step, accu1, stable1, hps, hadd, hadd2, hw, hbr⟩ := GBupdate_ok_elim h
  rcases hbr with ⟨_, hlen, hst⟩ | ⟨hgood, _, _, _⟩
  · have hetaAny : ∀ st2 st2' : GradientBasedBayesSolver, ∀ inp2 w2,
        st2.update inp2 = .ok (st2', w2) →
        st2'.eta = st2.eta ∨ st2'.eta = st2.eta * st2.corr_eta := by
      intro st2 st2' inp2 w2 h2
      obtain ⟨_, _, _, _, _, _, _, hbr2⟩ := GBupdate_ok_elim h2
      rcases hbr2 with ⟨_, _, hst2⟩ | ⟨_, _, _, hst2⟩
      · subst hst2
        right
        unfold rollbackCommit
        cases hl : (st2.hist_log.take (st2.hist_log.length - 1)).getLast? <;> simp [hl]
      · subst hst2
        left
        unfold acceptCommit
        simp
    subst hst
    unfold rollbackCommit
    cases hlast : (st.hist_log.take (st.hist_log.length - 1)).getLast? with
    | none =>
      refine ⟨by simp [hlast], by simp [hlast], by simp [hlast], hetaAny, ?_,
        by simp [hlast], by simp [hlast], by simp [List.length_drop]; omega,
        ?_, ?_⟩
      · intro a1 ha1
        rw [hadd] at ha1
        cases ha1
        simp [hlast]
      · intro r hr
        simp only [hlast] at hr ⊢
        simp at hr
      · intro _
        simp [hlast]
    | some r0 =>
      refine ⟨by simp [hlast], by simp [hlast], by simp [hlast], hetaAny, ?_,
        by simp [hlast], by simp [hlast], by simp [List.length_drop]; omega,
        ?_, ?_⟩
      · intro a1 ha1
        rw [hadd] at ha1
        cases ha1
        simp [hlast]
      · intro r hr
        simp only [hlast] at hr ⊢
        simp only [Option.some.injEq] at hr
        subst hr
        exact ⟨rfl, rfl, rfl⟩
      · intro hr
        simp only [hlast] at hr
        simp at hr
  · rw [hgood] at hbad; cases hbad

/-- Witness for C1 at the concrete rejected second step of the `exCfg` run
(the rollback exhausts the log, so the engine falls back to the initial
parameter and `+∞`). -/
theorem C1_rollback_witness :
    exSt1.update exInpBad = .ok (exSt2, some exWarnBad) ∧
    (exSt1.check_bad_grad (exInpBad.m_score + exSt1.temperature * exInpBad.kl)
      exInpBad.score_UQ).1 = true ∧
    exSt2.v = vzero exSt1.n_param ∧
    exSt2.eta = exSt1.eta * exSt1.corr_eta ∧
    exSt2.hist_log = exSt1.hist_log.take (exSt1.hist_log.length - 1) ∧
    exSt2.bin_log = exSt1.bin_log ++ exSt1.hist_log.drop (exSt1.hist_log.length - 1) ∧
    (exSt2.hist_log.getLast? = none →
      exSt2.post_param = exSt1.ini_post_param ∧ exSt2.prev_score = none) := by
  have h : exSt1.update exInpBad = .ok (exSt2, some exWarnBad) := by decide
  have hb : (exSt1.check_bad_grad (exInpBad.m_score + exSt1.temperature * exInpBad.kl)
      exInpBad.score_UQ).1 = true := by decide
  obtain ⟨c1, c2, c3, c4, c5, c6, c7, c8, c9, c10⟩ :=
    C1_rollback exSt1 exSt2 exInpBad (some exWarnBad) h hb
  exact ⟨h, hb, c1, c2, c6, c7, fun hn => ⟨(c10 hn).1, (c10 hn).2.2⟩⟩

/-- C9: `previous_accepted_score` is `+∞` (`none`) at construction, the
bad-step test is false whenever the previous score is `+∞` (so the first
`update` is never classified bad and is accepted, appending a primary-log
record without warning), a rollback that exhausts all logged history resets
the previous score to `+∞`, and the step immediately following such an
exhausted rollback therefore also cannot be classified bad. -/
theorem C9_inf_prev_score (normPpf : ℚ → ℚ) (cfg : GBConfig)
    (st1 st1' st2 st2' : GradientBasedBayesSolver) (i1 i2 : GBStepInput)
    (w1 w2 : Option ProbBadGrad)
    (h1 : st1.update i1 = .ok (st1', w1)) (hprev : st1.prev_score = none)
    (h2 : st2.update i2 = .ok (st2', w2))
    (hbad : (st2.check_bad_grad (i2.m_score + st2.temperature * i2.kl) i2.score_UQ).1 = true)
    (hone : st2.hist_log.length = 1) :
    (GradientBasedBayesSolver.init normPpf cfg).prev_score = none ∧
    (∀ sVI sUQ : ℚ, (st1.check_bad_grad sVI sUQ).1 = false) ∧
    w1 = none ∧
    st1'.hist_log = st1.hist_log ++
      [{ proba_par := st1.post_param, score := i1.m_score + st1.temperature * i1.kl,
         KL := i1.kl, mean := i1.m_score }] ∧
    st2'.prev_score = none ∧
    (∀ sVI sUQ : ℚ, (st2'.check_bad_grad sVI sUQ).1 = false) := by
  have hchk : ∀ (st : GradientBasedBayesSolver), st.prev_score = none →
      ∀ sVI sUQ : ℚ, (st.check_bad_grad sVI sUQ).1 = false := by
    intro st hp sVI sUQ
    unfold GradientBasedBayesSolver.check_bad_grad
    simp [hp]
  obtain ⟨n1, a1, s1, hps1, hadd1, hadd1s, hw1, hbr1⟩ := GBupdate_ok_elim h1
  obtain ⟨n2, a2, s2, hps2, hadd2, hadd2s, hw2, hbr2⟩ := GBupdate_ok_elim h2
  have hnotbad1 := hchk st1 hprev
  rcases hbr1 with ⟨hb1, _, _⟩ | ⟨_, _, _, hst1⟩
  · rw [hnotbad1 _ _] at hb1; cases hb1
  rcases hbr2 with ⟨_, _, hst2⟩ | ⟨hg2, _, _, _⟩
  swap
  · rw [hg2] at hbad; cases hbad
  have hw1none : w1 = none := by
    rw [hw1]
    unfold GradientBasedBayesSolver.check_bad_grad
    simp [hprev]
  have hprev2 : st2'.prev_score = none := by
    subst hst2
    unfold rollbackCommit
    have htake : st2.hist_log.take (st2.hist_log.length - 1) = [] := by
      rw [hone]
      simp
    rw [htake]
    simp
  refine ⟨rfl, hnotbad1, hw1none, ?_, hprev2, hchk st2' hprev2⟩
  subst hst1
  unfold acceptCommit
  simp

/-- Witness for C9: the first step of the `exCfg` run is accepted from
`prev_score = +∞`, and the rejected second step exhausts the log and resets
the previous score to `+∞`. -/
theorem C9_inf_prev_score_witness :
    (GradientBasedBayesSolver.init ppfEx exCfg).update exInpGood = .ok (exSt1, none) ∧
    (GradientBasedBayesSolver.init ppfEx exCfg).prev_score = none ∧
    exSt1.update exInpBad = .ok (exSt2, some exWarnBad) ∧
    (exSt1.check_bad_grad (exInpBad.m_score + exSt1.temperature * exInpBad.kl)
      exInpBad.score_UQ).1 = true ∧
    exSt1.hist_log.length = 1 ∧
    exSt2.prev_score = none ∧
    (∀ sVI sUQ : ℚ, ((GradientBasedBayesSolver.init ppfEx exCfg).check_bad_grad
      sVI sUQ).1 = false) := by
  have h1 : (GradientBasedBayesSolver.init ppfEx exCfg).update exInpGood
      = .ok (exSt1, none) := by decide
  have hp : (GradientBasedBayesSolver.init ppfEx exCfg).prev_score = none := by decide
  have h2 : exSt1.update exInpBad = .ok (exSt2, some exWarnBad) := by decide
  have hb : (exSt1.check_bad_grad (exInpBad.m_score + exSt1.temperature * exInpBad.kl)
      exInpBad.score_UQ).1 = true := by decide
  have ho : exSt1.hist_log.length = 1 := by decide
  obtain ⟨c1, c2, c3, c4, c5, c6⟩ :=
    C9_inf_prev_score ppfEx exCfg (GradientBasedBayesSolver.init ppfEx exCfg) exSt1
      exSt1 exSt2 exInpGood exInpBad none (some exWarnBad) h1 hp h2 hb ho
  exact ⟨h1, hp, h2, hb, ho, c5, c2⟩

/-- C5: each step of the vanilla engine computes the score-function gradient
as `tensordot(vals - mean, grads)/n_step` over the freshly drawn batch of
scheduled size `n_step` (equivalently `(1/n_t) * sum_i (value_i - mean_loss) *
grad_log_density_i`), records the batch in the accumulator, appends a
trajectory record carrying the pre-update parameter together with the
just-computed score, KL and mean loss, and commits
`new_param = param - eta * (grad_loss + temperature * grad_kl)`
unconditionally (there is no rejection hypothesis), incrementing the step
counter. -/
theorem C5_vanilla_update (st st' : GDBayesSolver) (inp : GDStepInput) (n_step : ℕ)
    (h : st.update inp = .ok st')
    (hn : st.per_step.get? st.count = some n_step)
    (_hsz : inp.vals.length = n_step) :
    st'.post_param = vadd st.post_param (smul (-st.eta)
      (vadd (vdiv (wsum st.n_param inp.vals (qmean inp.vals) inp.grads) (n_step : ℚ))
        (smul st.temperature inp.grad_kl))) ∧
    st'.hist_log = st.hist_log ++
      [{ proba_par := st.post_param, score := qmean inp.vals + st.temperature * inp.kl,
         KL := inp.kl, mean := qmean inp.vals }] ∧
    st'.accu.gens = st.accu.gens ++ [{ samples := inp.samples, vals := inp.vals }] ∧
    st'.accu.n_tot = st.accu.n_tot ∧
    st'.count = st.count + 1 ∧
    st'.eta = st.eta ∧
    st'.per_step = st.per_step := by
  obtain ⟨m, accu1, hps, hadd, _, _, _, hst⟩ := GDupdate_ok_elim h
  rw [hn] at hps
  cases hps
  have haccu : accu1.gens = st.accu.gens ++ [{ samples := inp.samples, vals := inp.vals }] ∧
      accu1.n_tot = st.accu.n_tot := by
    unfold AccuSampleVal.add at hadd
    by_cases hle : st.accu.n_filled +
        ({ samples := inp.samples, vals := inp.vals } : ValGen).samples.length ≤ st.accu.n_tot
    · rw [if_pos hle] at hadd; cases hadd; exact ⟨rfl, rfl⟩
    · rw [if_neg hle] at hadd; cases hadd
  subst hst
  exact ⟨rfl, rfl, haccu.1, haccu.2, rfl, rfl, rfl⟩

/-- Witness for C5 at the concrete vanilla step of `exGDCfg`. -/
theorem C5_vanilla_update_witness :
    (GDBayesSolver.init exGDCfg).update exGDInp = .ok exGDSt1 ∧
    (GDBayesSolver.init exGDCfg).per_step.get? (GDBayesSolver.init exGDCfg).count
      = some 2 ∧
    exGDInp.vals.length = 2 ∧
    exGDSt1.post_param = vadd (GDBayesSolver.init exGDCfg).post_param
      (smul (-(GDBayesSolver.init exGDCfg).eta)
        (vadd (vdiv (wsum (GDBayesSolver.init exGDCfg).n_param exGDInp.vals
            (qmean exGDInp.vals) exGDInp.grads) (2 : ℚ))
          (smul (GDBayesSolver.init exGDCfg).temperature exGDInp.grad_kl))) ∧
    exGDSt1.count = (GDBayesSolver.init exGDCfg).count + 1 := by
  have h : (GDBayesSolver.init exGDCfg).update exGDInp = .ok exGDSt1 := by decide
  have hn : (GDBayesSolver.init exGDCfg).per_step.get? (GDBayesSolver.init exGDCfg).count
      = some 2 := by decide
  have hsz : exGDInp.vals.length = 2 := by decide
  obtain ⟨c1, c2, c3, c4, c5, c6, c7⟩ :=
    C5_vanilla_update (GDBayesSolver.init exGDCfg) exGDSt1 exGDInp 2 h hn hsz
  exact ⟨h, hn, hsz, c1, c5⟩

/-- C4: the robust engine stores `eta * (1 - momentum)` at construction (so
`eta` itself when `momentum = 0`), and on an accepted step with `momentum = 0`
and no frozen coordinates the committed parameter is exactly
`param - eta * (der_score + temperature * der_KL)` with no momentum carried
over — the same update rule `spec_vanilla_step` that the vanilla engine's
`update` commits with its own `eta` and gradient. -/
theorem C4_momentum_zero (normPpf : ℚ → ℚ) (cfg : GBConfig)
    (st st' : GradientBasedBayesSolver) (inp : GBStepInput) (w : Option ProbBadGrad)
    (gst gst' : GDBayesSolver) (ginp : GDStepInput) (n_step : ℕ)
    (hcfg : cfg.momentum = 0)
    (h : st.update inp = .ok (st', w))
    (hgood : (st.check_bad_grad (inp.m_score + st.temperature * inp.kl) inp.score_UQ).1
      = false)
    (hmom : st.momentum = 0)
    (hfree : st.index_no_train = [])
    (hv : st.n_param ≤ st.v.length)
    (hg : gst.update ginp = .ok gst')
    (hgn : gst.per_step.get? gst.count = some n_step) :
    (GradientBasedBayesSolver.init normPpf cfg).eta = cfg.eta * (1 - cfg.momentum) ∧
    (GradientBasedBayesSolver.init normPpf cfg).eta = cfg.eta ∧
    st'.post_param =
      spec_vanilla_step st.eta st.temperature st.post_param inp.der_score inp.der_KL ∧
    st'.v = smul (-st.eta) (vadd inp.der_score (smul st.temperature inp.der_KL)) ∧
    gst'.post_param = spec_vanilla_step gst.eta gst.temperature gst.post_param
      (vdiv (wsum gst.n_param ginp.vals (qmean ginp.vals) ginp.grads) (n_step : ℚ))
      ginp.grad_kl := by
  obtain ⟨n1, a1, s1, hps, hadd, hadds, hw, hbr⟩ := GBupdate_ok_elim h
  rcases hbr with ⟨hb, _, _⟩ | ⟨_, hds, hdk, hst⟩
  · rw [hgood] at hb; cases hb
  have hraw : vadd (maskFrozen st.index_no_train 0
      (smul (-st.eta) (vadd inp.der_score (smul st.temperature inp.der_KL))))
      (smul st.momentum st.v) =
      smul (-st.eta) (vadd inp.der_score (smul st.temperature inp.der_KL)) := by
    rw [hfree, maskFrozen_nil, hmom]
    apply vadd_smul_zero
    rw [smul_length, vadd_length, smul_length, hds, hdk]
    simpa using hv
  have hinit2 : (GradientBasedBayesSolver.init normPpf cfg).eta = cfg.eta := by
    show cfg.eta * (1 - cfg.momentum) = cfg.eta
    rw [hcfg]
    ring
  obtain ⟨m, accu1, hps2, hadd2, _, _, _, hstg⟩ := GDupdate_ok_elim hg
  rw [hgn] at hps2
  cases hps2
  subst hst
  subst hstg
  refine ⟨rfl, hinit2, ?_, ?_, ?_⟩
  · simp only [acceptCommit]
    rw [hraw]
    rfl
  · simp only [acceptCommit]
    rw [hraw]
  · rfl

/-- Witness for C4: the first accepted step of the `exCfg` run (momentum 0,
no frozen coordinates) against the concrete vanilla step of `exGDCfg`. -/
theorem C4_momentum_zero_witness :
    exCfg.momentum = 0 ∧
    (GradientBasedBayesSolver.init ppfEx exCfg).update exInpGood = .ok (exSt1, none) ∧
    ((GradientBasedBayesSolver.init ppfEx exCfg).check_bad_grad
      (exInpGood.m_score + (GradientBasedBayesSolver.init ppfEx exCfg).temperature *
        exInpGood.kl) exInpGood.score_UQ).1 = false ∧
    (GDBayesSolver.init exGDCfg).update exGDInp = .ok exGDSt1 ∧
    (GradientBasedBayesSolver.init ppfEx exCfg).eta = exCfg.eta ∧
    exSt1.post_param = spec_vanilla_step (GradientBasedBayesSolver.init ppfEx exCfg).eta
      (GradientBasedBayesSolver.init ppfEx exCfg).temperature
      (GradientBasedBayesSolver.init ppfEx exCfg).post_param
      exInpGood.der_score exInpGood.der_KL ∧
    exGDSt1.post_param = spec_vanilla_step (GDBayesSolver.init exGDCfg).eta
      (GDBayesSolver.init exGDCfg).temperature (GDBayesSolver.init exGDCfg).post_param
      (vdiv (wsum (GDBayesSolver.init exGDCfg).n_param exGDInp.vals (qmean exGDInp.vals)
        exGDInp.grads) (2 : ℚ)) exGDInp.grad_kl := by
  have h : (GradientBasedBayesSolver.init ppfEx exCfg).update exInpGood
      = .ok (exSt1, none) := by decide
  have hgood : ((GradientBasedBayesSolver.init ppfEx exCfg).check_bad_grad
      (exInpGood.m_score + (GradientBasedBayesSolver.init ppfEx exCfg).temperature *
        exInpGood.kl) exInpGood.score_UQ).1 = false := by decide
  have hg : (GDBayesSolver.init exGDCfg).update exGDInp = .ok exGDSt1 := by decide
  have hgn : (GDBayesSolver.init exGDCfg).per_step.get?
      (GDBayesSolver.init exGDCfg).count = some 2 := by decide
  obtain ⟨c1, c2, c3, c4, c5⟩ :=
    C4_momentum_zero ppfEx exCfg (GradientBasedBayesSolver.init ppfEx exCfg) exSt1
      exInpGood none (GDBayesSolver.init exGDCfg) exGDSt1 exGDInp 2
      (by decide) h hgood (by decide) (by decide) (by decide) hg hgn
  exact ⟨by decide, h, hgood, hg, c2, c3, c5⟩

/-- C10: every successful `update` of the robust engine appends the drawn
generation to both accumulators, the rollback of a bad step removes the 2
most recent generations only from the density-tracking accumulator, and the
stable accumulator is never truncated: over any successful run it accumulates
exactly one generation per step, rejected steps included. -/
theorem C10_stable_accu_frame (st st' : GradientBasedBayesSolver) (inp : GBStepInput)
    (w : Option ProbBadGrad)
    (h : st.update inp = .ok (st', w)) :
    st'.stable_accu.gens = st.stable_accu.gens ++ [inp.gen.toValGen] ∧
    st'.stable_accu.n_tot = st.stable_accu.n_tot ∧
    ((st.check_bad_grad (inp.m_score + st.temperature * inp.kl) inp.score_UQ).1 = false →
      st'.accu.gens = st.accu.gens ++ [inp.gen]) ∧
    ((st.check_bad_grad (inp.m_score + st.temperature * inp.kl) inp.score_UQ).1 = true →
      st'.accu.gens =
        (st.accu.gens ++ [inp.gen]).take ((st.accu.gens ++ [inp.gen]).length - 2)) ∧
    (∀ (st0 : GradientBasedBayesSolver) (inps : List GBStepInput)
        (st1 : GradientBasedBayesSolver), runGB st0 inps = .ok st1 →
      st1.stable_accu.gens = st0.stable_accu.gens ++ inps.map (fun i => i.gen.toValGen)) := by
  obtain ⟨n_step, accu1, stable1, hps, hadd, hadd2, hw, hbr⟩ := GBupdate_ok_elim h
  have haccu1 : accu1.gens = st.accu.gens ++ [inp.gen] := by
    unfold AccuSampleValDens.add at hadd
    by_cases hle : st.accu.n_filled + inp.gen.samples.length ≤ st.accu.n_tot
    · rw [if_pos hle] at hadd; cases hadd; rfl
    · rw [if_neg hle] at hadd; cases hadd
  have hrun : ∀ (st0 : GradientBasedBayesSolver) (inps : List GBStepInput)
      (st1 : GradientBasedBayesSolver), runGB st0 inps = .ok st1 →
      st1.stable_accu.gens = st0.stable_accu.gens ++ inps.map (fun i => i.gen.toValGen) := by
    intro st0 inps
    induction inps generalizing st0 with
    | nil =>
      intro st1 hr
      unfold runGB at hr
      cases hr
      simp
    | cons i is ih =>
      intro st1 hr
      unfold runGB at hr
      cases hu : st0.update i with
      | error e => rw [hu] at hr; cases hr
      | ok pr =>
        rw [hu] at hr
        dsimp only at hr
        have hfr := @GBupdate_ok_frame st0 pr.1 i pr.2 (by rw [hu])
        have hstep := hfr.2.2.2.2.2.2.2.2.2.2.2.2.2.2
        have htail := ih pr.1 st1 hr
        rw [htail, hstep]
        simp
  refine ⟨(GBupdate_ok_frame h).2.2.2.2.2.2.2.2.2.2.2.2.2.2,
    (GBupdate_ok_frame h).2.2.2.2.2.2.2.2.2.2.2.2.2.1, ?_, ?_, hrun⟩
  · intro hgood
    rcases hbr with ⟨hb, _, _⟩ | ⟨_, _, _, hst⟩
    · rw [hgood] at hb; cases hb
    · subst hst
      unfold acceptCommit
      simpa using haccu1
  · intro hbad
    rcases hbr with ⟨_, _, hst⟩ | ⟨hg, _, _, _⟩
    · subst hst
      unfold rollbackCommit
      cases hl : (st.hist_log.take (st.hist_log.length - 1)).getLast? <;>
        simp [hl, AccuSampleValDens.suppr_gen, haccu1]
    · rw [hg] at hbad; cases hbad

/-- Witness for C10 at the concrete rejected second step of the `exCfg` run. -/
theorem C10_stable_accu_frame_witness :
    exSt1.update exInpBad = .ok (exSt2, some exWarnBad) ∧
    exSt2.stable_accu.gens = exSt1.stable_accu.gens ++ [exInpBad.gen.toValGen] ∧
    ((exSt1.check_bad_grad (exInpBad.m_score + exSt1.temperature * exInpBad.kl)
        exInpBad.score_UQ).1 = true →
      exSt2.accu.gens =
        (exSt1.accu.gens ++ [exInpBad.gen]).take
          ((exSt1.accu.gens ++ [exInpBad.gen]).length - 2)) := by
  have h : exSt1.update exInpBad = .ok (exSt2, some exWarnBad) := by decide
  obtain ⟨c1, c2, c3, c4, c5⟩ :=
    C10_stable_accu_frame exSt1 exSt2 exInpBad (some exWarnBad) h
  exact ⟨h, c1, c4⟩

/-- The score reported for the most recent record: if the log ends in `rec`,
`VI_scores(1)[0]` is `rec.score`. -/
theorem VI_scores_last_one : ∀ (l : List HistRecord) (rec : HistRecord),
    l.getLast? = some rec → (VI_scores_last l 1).head? = some rec.score := by
  intro l
  induction l with
  | nil => intro rec h; cases h
  | cons a t ih =>
    intro rec h
    cases t with
    | nil =>
      simp [List.getLast?] at h
      subst h
      rfl
    | cons b t' =>
      have h2 : (b :: t').getLast? = some rec := by
        rwa [List.getLast?_cons_cons] at h
      have h3 := ih rec h2
      simpa [VI_scores_last, List.length, Nat.succ_sub_one] using h3

/-- C7 (amended): the final result record assembled by `process_result`
contains the optimized parameter, the converged flag, the most recent
accepted score, the full parameter and score histories from the primary log,
the final parameter, the primary and bin trajectory logs, and the
density-tracking accumulator (`sample_val`); the stable accumulator is not
part of the record. -/
theorem C7_result_fields (st : GradientBasedBayesSolver) (r : OptimResultVIGB)
    (rec : HistRecord)
    (h : st.process_result = .ok r) (hlast : st.hist_log.getLast? = some rec) :
    r.opti_param = st.post_param ∧ r.converged = st.converged ∧
    r.opti_score = rec.score ∧ r.hist_param = proba_pars st.hist_log ∧
    r.hist_score = VI_scores st.hist_log ∧ r.end_param = st.post_param ∧
    r.log_vi = st.hist_log ∧ r.bin_log_vi = st.bin_log ∧ r.sample_val = st.accu := by
  have hh := VI_scores_last_one st.hist_log rec hlast
  unfold GradientBasedBayesSolver.process_result at h
  rw [hh] at h
  cases h
  exact ⟨rfl, rfl, rfl, rfl, rfl, rfl, rfl, rfl, rfl⟩

/-- Witness for C7 at the end of the concrete three-step run. -/
theorem C7_result_fields_witness :
    exSt3.process_result = .ok exRes3 ∧
    exSt3.hist_log.getLast? = some { proba_par := [0], score := 1, KL := 0, mean := 1 } ∧
    (exRes3.opti_param = exSt3.post_param ∧ exRes3.opti_score = 1 ∧
      exRes3.log_vi = exSt3.hist_log ∧ exRes3.bin_log_vi = exSt3.bin_log ∧
      exRes3.sample_val = exSt3.accu) := by
  have h : exSt3.process_result = .ok exRes3 := by decide
  have hl : exSt3.hist_log.getLast?
      = some { proba_par := [0], score := 1, KL := 0, mean := 1 } := by decide
  obtain ⟨c1, c2, c3, c4, c5, c6, c7, c8, c9⟩ :=
    C7_result_fields exSt3 exRes3 { proba_par := [0], score := 1, KL := 0, mean := 1 } h hl
  exact ⟨h, hl, c1, c3, c7, c8, c9⟩

/-- Counterexample for C7 as stated: at the end of the reachable three-step
run accepted/rejected/accepted, the only accumulator carried by the assembled
result record is the density-tracking accumulator (`sample_val = accu`),
whose contents differ from the stable accumulator — so the result does not
contain both accumulators. -/
theorem C7_counterexample :
    runGB (GradientBasedBayesSolver.init ppfEx exCfg3) [exInpGood, exInpBad, exInp3]
      = .ok exSt3 ∧
    exSt3.process_result = .ok exRes3 ∧
    exRes3.sample_val = exSt3.accu ∧
    exRes3.sample_val.gens.map DensGen.toValGen ≠ exSt3.stable_accu.gens ∧
    exRes3.sample_val.gens.length ≠ exSt3.stable_accu.gens.length :=
  ⟨by decide, by decide, by decide, by decide, by decide⟩

/-- Helper: the density accumulator's `add` only ever fails with the capacity
error. -/
theorem add_error_cap {a : AccuSampleValDens} {g : DensGen} {e : SolverErr}
    (h : a.add g = .error e) : e = .capacityOverflow := by
  unfold AccuSampleValDens.add at h
  by_cases hle : a.n_filled + g.samples.length ≤ a.n_tot
  · rw [if_pos hle] at h; cases h
  · rw [if_neg hle] at h; cases h; rfl

/-- Helper: the value accumulator's `add` only ever fails with the capacity
error. -/
theorem addv_error_cap {a : AccuSampleVal} {g : ValGen} {e : SolverErr}
    (h : a.add g = .error e) : e = .capacityOverflow := by
  unfold AccuSampleVal.add at h
  by_cases hle : a.n_filled + g.samples.length ≤ a.n_tot
  · rw [if_pos hle] at h; cases h
  · rw [if_neg hle] at h; cases h; rfl

/-- C6 (amended): trajectory-log underflow is recovered inside `update` and
inside the per-step report: whenever at least one record is logged, `update`
never signals the log's underflow error; a rollback that exhausts the log
recovers by falling back to the run's initial parameter and `+∞`; and the
end-of-step report never fails, reporting "no score yet" on an empty log.
(`process_result`, by contrast, propagates the underflow — see the
counterexample.) -/
theorem C6_underflow_recovery (st stb stb' : GradientBasedBayesSolver)
    (inpb : GBStepInput) (wb : Option ProbBadGrad)
    (hlen : 1 ≤ st.hist_log.length)
    (hb : stb.update inpb = .ok (stb', wb))
    (hbad : (stb.check_bad_grad (inpb.m_score + stb.temperature * inpb.kl)
      inpb.score_UQ).1 = true)
    (hexh : stb.hist_log.length = 1) :
    (∀ inp, st.update inp ≠ .error .histUnderflow) ∧
    (stb'.post_param = stb.ini_post_param ∧ stb'.post_dist_param = stb.ini_post_param ∧
      stb'.prev_score = none) ∧
    (∀ s : GradientBasedBayesSolver, ∀ e, s.msg_end_step ≠ .error e) ∧
    (∀ s : GradientBasedBayesSolver, s.hist_log = [] → s.msg_end_step = .ok none) := by
  refine ⟨?_, ?_, ?_, ?_⟩
  · intro inp hc
    unfold GradientBasedBayesSolver.update at hc
    cases hps : st.per_step.get? st.count with
    | none => rw [hps] at hc; simp at hc
    | some n =>
      rw [hps] at hc
      cases hadd : st.accu.add inp.gen with
      | error e =>
        rw [hadd] at hc
        have he := add_error_cap hadd
        subst he
        simp at hc
      | ok a1 =>
        rw [hadd] at hc
        cases hadd2 : st.stable_accu.add inp.gen.toValGen with
        | error e =>
          rw [hadd2] at hc
          have he := addv_error_cap hadd2
          subst he
          simp at hc
        | ok s1 =>
          rw [hadd2] at hc
          dsimp only at hc
          by_cases hbad2 : (st.check_bad_grad (inp.m_score + st.temperature * inp.kl)
              inp.score_UQ).1 = true
          · rw [if_pos hbad2] at hc
            have hsup : hist_suppr st.hist_log 1 =
                .ok (st.hist_log.drop (st.hist_log.length - 1),
                  st.hist_log.take (st.hist_log.length - 1)) := by
              unfold hist_suppr
              rw [if_pos hlen]
            rw [hsup] at hc
            simp at hc
          · rw [if_neg hbad2] at hc
            by_cases hsh : inp.der_score.length = st.n_param ∧
                inp.der_KL.length = st.n_param
            · rw [if_pos hsh] at hc; simp at hc
            · rw [if_neg hsh] at hc; simp at hc
  · obtain ⟨n, a1, s1, hps, hadd, hadd2, hw, hbr⟩ := GBupdate_ok_elim hb
    rcases hbr with ⟨_, _, hst⟩ | ⟨hg, _, _, _⟩
    · subst hst
      unfold rollbackCommit
      have htake : stb.hist_log.take (stb.hist_log.length - 1) = [] := by
        rw [hexh]
        simp
      rw [htake]
      exact ⟨rfl, rfl, rfl⟩
    · rw [hg] at hbad; cases hbad
  · intro s e hc
    unfold GradientBasedBayesSolver.msg_end_step at hc
    cases hbase : msg_end_step_base s with
    | ok q => rw [hbase] at hc; simp at hc
    | error e2 => rw [hbase] at hc; simp at hc
  · intro s hs
    unfold GradientBasedBayesSolver.msg_end_step msg_end_step_base
    rw [hs]
    rfl

/-- Witness for C6 at the concrete rejected second step of the `exCfg` run. -/
theorem C6_underflow_recovery_witness :
    1 ≤ exSt1.hist_log.length ∧
    exSt1.update exInpBad = .ok (exSt2, some exWarnBad) ∧
    exSt1.hist_log.length = 1 ∧
    (∀ inp, exSt1.update inp ≠ .error .histUnderflow) ∧
    (exSt2.post_param = exSt1.ini_post_param ∧ exSt2.prev_score = none) ∧
    exSt2.msg_end_step = .ok none := by
  have h0 : (1:ℕ) ≤ exSt1.hist_log.length := by decide
  have h1 : exSt1.update exInpBad = .ok (exSt2, some exWarnBad) := by decide
  have h2 : (exSt1.check_bad_grad (exInpBad.m_score + exSt1.temperature * exInpBad.kl)
      exInpBad.score_UQ).1 = true := by decide
  have h3 : exSt1.hist_log.length = 1 := by decide
  obtain ⟨c1, c2, c3, c4⟩ :=
    C6_underflow_recovery exSt1 exSt1 exSt2 exInpBad (some exWarnBad) h0 h1 h2 h3
  exact ⟨h0, h1, h3, c1, ⟨c2.1, c2.2.2⟩, c4 exSt2 (by decide)⟩

/-- Counterexample for C6 as stated: after the reachable two-step run whose
second step is rejected and exhausts the log, `process_result` propagates the
trajectory-log underflow as an error instead of recovering. -/
theorem C6_counterexample :
    runGB (GradientBasedBayesSolver.init ppfEx exCfg) [exInpGood, exInpBad] = .ok exSt2 ∧
    exSt2.hist_log = [] ∧
    exSt2.process_result = .error .histUnderflow :=
  ⟨by decide, by decide, by decide⟩

/-- One successful `update` of the robust engine preserves the
frozen-coordinate invariant. -/
theorem FrozenInv_update {p0 : Vec} {n i : ℕ} {st st' : GradientBasedBayesSolver}
    {inp : GBStepInput} {w : Option ProbBadGrad}
    (hinv : FrozenInv p0 n i st) (h : st.update inp = .ok (st', w)) :
    FrozenInv p0 n i st' := by
  obtain ⟨hn, hp0, hilt, himem, hini, hplen, hpget, hvlen, hvget, hhist⟩ := hinv
  obtain ⟨ns, a1, s1, hps, hadd, hadd2, hw, hbr⟩ := GBupdate_ok_elim h
  have hin : i < st.n_param := hn ▸ hilt
  rcases hbr with ⟨_, _, hst⟩ | ⟨_, hds, hdk, hst⟩
  · subst hst
    unfold rollbackCommit
    have htakesub : ∀ r ∈ st.hist_log.take (st.hist_log.length - 1),
        r.proba_par.length = n ∧ r.proba_par.get? i = p0.get? i := by
      intro r hr
      exact hhist r (List.take_subset _ _ hr)
    cases hlast : (st.hist_log.take (st.hist_log.length - 1)).getLast? with
    | none =>
      refine ⟨hn, hp0, hilt, himem, hini, ?_, ?_, ?_, ?_, htakesub⟩
      · rw [hini, hp0]
      · rw [hini]
      · rw [vzero_length, hn]
      · exact vzero_get? hin
    | some r =>
      obtain ⟨hrlen, hrget⟩ := htakesub r (getLast?_mem_self hlast)
      exact ⟨hn, hp0, hilt, himem, hini, hrlen, hrget, by rw [vzero_length, hn],
        vzero_get? hin, htakesub⟩
  · subst hst
    unfold acceptCommit
    have hraw_len : (smul (-st.eta) (vadd inp.der_score
        (smul st.temperature inp.der_KL))).length = st.n_param := by
      rw [smul_length, vadd_length, smul_length, hds, hdk, min_self]
    have hmask_len : (maskFrozen st.index_no_train 0 (smul (-st.eta)
        (vadd inp.der_score (smul st.temperature inp.der_KL)))).length = st.n_param := by
      rw [maskFrozen_length, hraw_len]
    have hmask_get : (maskFrozen st.index_no_train 0 (smul (-st.eta)
        (vadd inp.der_score (smul st.temperature inp.der_KL)))).get? i = some 0 := by
      apply maskFrozen_get?_mem
      · rw [hraw_len]; exact hin
      · simpa using himem
    have hsm_get : (smul st.momentum st.v).get? i = some (st.momentum * 0) := by
      rw [smul_get?, hvget]
      rfl
    have hv1_get : (vadd (maskFrozen st.index_no_train 0 (smul (-st.eta)
        (vadd inp.der_score (smul st.temperature inp.der_KL))))
        (smul st.momentum st.v)).get? i = some 0 := by
      have := vadd_get? _ _ i 0 (st.momentum * 0) hmask_get hsm_get
      rw [this]
      norm_num
    have hv1_len : (vadd (maskFrozen st.index_no_train 0 (smul (-st.eta)
        (vadd inp.der_score (smul st.temperature inp.der_KL))))
        (smul st.momentum st.v)).length = st.n_param := by
      rw [vadd_length, hmask_len, smul_length, hvlen, hn, min_self]
    obtain ⟨q, hq⟩ : ∃ q, p0.get? i = some q :=
      ⟨_, List.get?_eq_get (hp0 ▸ hilt)⟩
    have hpq : st.post_param.get? i = some q := by rw [hpget, hq]
    have hnewp_get : (vadd st.post_param (vadd (maskFrozen st.index_no_train 0
        (smul (-st.eta) (vadd inp.der_score (smul st.temperature inp.der_KL))))
        (smul st.momentum st.v))).get? i = some q := by
      have := vadd_get? _ _ i q 0 hpq hv1_get
      rw [this]
      norm_num
    have hnewp_len : (vadd st.post_param (vadd (maskFrozen st.index_no_train 0
        (smul (-st.eta) (vadd inp.der_score (smul st.temperature inp.der_KL))))
        (smul st.momentum st.v))).length = n := by
      rw [vadd_length, hplen, hv1_len, hn, min_self]
    refine ⟨hn, hp0, hilt, himem, hini, hnewp_len, by rw [hnewp_get, hq],
      by rw [hv1_len, hn], hv1_get, ?_⟩
    intro r hr
    rcases List.mem_append.mp hr with hold | hnew
    · exact hhist r hold
    · have hre : r = HistRecord.mk st.post_param
          (inp.m_score + st.temperature * inp.kl) inp.kl inp.m_score := by
        simpa using hnew
      subst hre
      exact ⟨hplen, hpget⟩

/-- Any successful run of the robust engine preserves the frozen-coordinate
invariant. -/
theorem FrozenInv_run {p0 : Vec} {n i : ℕ} :
    ∀ (inps : List GBStepInput) (st st' : GradientBasedBayesSolver),
    FrozenInv p0 n i st → runGB st inps = .ok st' → FrozenInv p0 n i st' := by
  intro inps
  induction inps with
  | nil =>
    intro st st' hinv hr
    unfold runGB at hr
    cases hr
    exact hinv
  | cons inp is ih =>
    intro st st' hinv hr
    unfold runGB at hr
    cases hu : st.update inp with
    | error e => rw [hu] at hr; cases hr
    | ok pr =>
      rw [hu] at hr
      dsimp only at hr
      exact ih pr.1 st' (FrozenInv_update hinv (by rw [hu])) hr

/-- C3 (amended): over every successful run of the *robust* engine, every
frozen coordinate (member of the complement of `index_train`) of the
committed parameter keeps its initial value after every step, and every
logged parameter agrees with the initial parameter there as well.  (The
vanilla engine applies no frozen-coordinate masking — see the
counterexample.) -/
theorem C3_frozen_robust (normPpf : ℚ → ℚ) (cfg : GBConfig)
    (inps : List GBStepInput) (st' : GradientBasedBayesSolver) (i : ℕ)
    (hlen : cfg.post_param0.length = cfg.n_param)
    (hi : i ∈ (GradientBasedBayesSolver.init normPpf cfg).index_no_train)
    (hrun : runGB (GradientBasedBayesSolver.init normPpf cfg) inps = .ok st') :
    st'.post_param.get? i = cfg.post_param0.get? i ∧
    (∀ r ∈ st'.hist_log, r.proba_par.get? i = cfg.post_param0.get? i) := by
  have hno : (GradientBasedBayesSolver.init normPpf cfg).index_no_train
      = (mkIndexSets cfg.n_param cfg.index_train).1 := rfl
  have hi_lt : i < cfg.n_param := by
    rw [hno] at hi
    cases hidx : cfg.index_train with
    | none =>
      exfalso
      rw [hidx] at hi
      simp [mkIndexSets] at hi
    | some it =>
      rw [hidx] at hi
      simp only [mkIndexSets, List.mem_filter, List.mem_range] at hi
      exact hi.1
  have hinv0 : FrozenInv cfg.post_param0 cfg.n_param i
      (GradientBasedBayesSolver.init normPpf cfg) := by
    refine ⟨rfl, hlen, hi_lt, hi, rfl, hlen, rfl,
      vzero_length cfg.n_param, vzero_get? hi_lt, ?_⟩
    intro r hr
    cases hr
  obtain ⟨_, _, _, _, _, _, hpget, _, _, hhist⟩ := FrozenInv_run inps _ st' hinv0 hrun
  exact ⟨hpget, fun r hr => (hhist r hr).2⟩

/-- Witness for C3 on the concrete two-coordinate frozen run of the robust
engine: index 0 is frozen and keeps its initial value. -/
theorem C3_frozen_robust_witness :
    exCfgFrozen.post_param0.length = exCfgFrozen.n_param ∧
    0 ∈ (GradientBasedBayesSolver.init ppfEx exCfgFrozen).index_no_train ∧
    runGB (GradientBasedBayesSolver.init ppfEx exCfgFrozen) [exInpFrozen] = .ok exStF ∧
    exStF.post_param.get? 0 = exCfgFrozen.post_param0.get? 0 := by
  have h1 : exCfgFrozen.post_param0.length = exCfgFrozen.n_param := by decide
  have h2 : (0:ℕ) ∈ (GradientBasedBayesSolver.init ppfEx exCfgFrozen).index_no_train := by
    decide
  have h3 : runGB (GradientBasedBayesSolver.init ppfEx exCfgFrozen) [exInpFrozen]
      = .ok exStF := by decide
  exact ⟨h1, h2, h3, (C3_frozen_robust ppfEx exCfgFrozen [exInpFrozen] exStF 0 h1 h2 h3).1⟩

/-- Counterexample for C3 as stated ("either gradient engine"): the vanilla
engine applies no frozen-coordinate masking, so one step of the `exGDCfg` run
— whose single coordinate 0 is frozen (`index_train = []`) — moves the
committed parameter at the frozen index away from its initial value. -/
theorem C3_counterexample :
    (GDBayesSolver.init exGDCfg).update exGDInp = .ok exGDSt1 ∧
    0 ∈ (GDBayesSolver.init exGDCfg).index_no_train ∧
    (GDBayesSolver.init exGDCfg).post_param = exGDCfg.post_param0 ∧
    exGDSt1.post_param.get? 0 ≠ exGDCfg.post_param0.get? 0 :=
  ⟨by decide, by decide, by decide, by decide⟩

/-- Helper: `hist_suppr` only ever fails with the underflow error. -/
theorem hist_suppr_error {l : List HistRecord} {n : ℕ} {e : SolverErr}
    (h : hist_suppr l n = .error e) : e = .histUnderflow := by
  unfold hist_suppr at h
  by_cases hle : n ≤ l.length
  · rw [if_pos hle] at h; cases h
  · rw [if_neg hle] at h; cases h; rfl

/-- Helper: removing generations never increases the number of stored
samples. -/
theorem suppr_gen_n_filled_le (a : AccuSampleValDens) (k : ℕ) :
    (a.suppr_gen k).n_filled ≤ a.n_filled := by
  unfold AccuSampleValDens.suppr_gen AccuSampleValDens.n_filled
  simp only [List.map_take]
  exact sum_take_le _ _

/-- Helper: a successful density-accumulator `add` appends the generation and
grows the fill count by the generation's size, keeping the capacity. -/
theorem add_ok_fields {a a' : AccuSampleValDens} {g : DensGen}
    (h : a.add g = .ok a') :
    a'.n_filled = a.n_filled + g.samples.length ∧ a'.n_tot = a.n_tot ∧
    a'.gens = a.gens ++ [g] := by
  unfold AccuSampleValDens.add at h
  by_cases hle : a.n_filled + g.samples.length ≤ a.n_tot
  · rw [if_pos hle] at h
    cases h
    refine ⟨?_, rfl, rfl⟩
    unfold AccuSampleValDens.n_filled
    simp
  · rw [if_neg hle] at h; cases h

/-- Helper: a successful value-accumulator `add` appends the generation and
grows the fill count by the generation's size, keeping the capacity. -/
theorem addv_ok_fields {a a' : AccuSampleVal} {g : ValGen}
    (h : a.add g = .ok a') :
    a'.n_filled = a.n_filled + g.samples.length ∧ a'.n_tot = a.n_tot ∧
    a'.gens = a.gens ++ [g] := by
  unfold AccuSampleVal.add at h
  by_cases hle : a.n_filled + g.samples.length ≤ a.n_tot
  · rw [if_pos hle] at h
    cases h
    refine ⟨?_, rfl, rfl⟩
    unfold AccuSampleVal.n_filled
    simp
  · rw [if_neg hle] at h; cases h

/-- Helper: the accumulator, schedule and counter fields of the rollback
commit. -/
theorem rollbackCommit_fields (st : GradientBasedBayesSolver) (a1 : AccuSampleValDens)
    (s1 : AccuSampleVal) (removed hist1 : List HistRecord) :
    (rollbackCommit st a1 s1 removed hist1).accu = a1.suppr_gen 2 ∧
    (rollbackCommit st a1 s1 removed hist1).stable_accu = s1 ∧
    (rollbackCommit st a1 s1 removed hist1).count = st.count + 1 ∧
    (rollbackCommit st a1 s1 removed hist1).per_step = st.per_step := by
  unfold rollbackCommit
  cases hl : hist1.getLast? <;> simp [hl]

/-- Helper: the accumulator, schedule and counter fields of the accept
commit. -/
theorem acceptCommit_fields (st : GradientBasedBayesSolver) (inp : GBStepInput)
    (a1 : AccuSampleValDens) (s1 : AccuSampleVal) (sVI : ℚ) :
    (acceptCommit st inp a1 s1 sVI).accu = a1 ∧
    (acceptCommit st inp a1 s1 sVI).stable_accu = s1 ∧
    (acceptCommit st inp a1 s1 sVI).count = st.count + 1 ∧
    (acceptCommit st inp a1 s1 sVI).per_step = st.per_step := by
  unfold acceptCommit
  exact ⟨rfl, rfl, rfl, rfl⟩

/-- One step of the robust engine from a state satisfying the capacity
invariant, fed a generation of the scheduled size, never signals the
capacity-overflow error, and preserves the capacity invariant. -/
theorem CapInv_update {st : GradientBasedBayesSolver} {inp : GBStepInput}
    (hc : CapInv st)
    (hsz : ∀ m, st.per_step.get? st.count = some m → inp.gen.samples.length = m) :
    st.update inp ≠ .error .capacityOverflow ∧
    (∀ st' w, st.update inp = .ok (st', w) → CapInv st') := by
  constructor
  · unfold GradientBasedBayesSolver.update
    cases hps : st.per_step.get? st.count with
    | none => intro hco; simp at hco
    | some m =>
      have hm : inp.gen.samples.length = m := hsz m hps
      have hsum : (st.per_step.drop st.count).sum
          = m + (st.per_step.drop (st.count + 1)).sum := sum_drop_get? _ _ _ hps
      have hok1 : st.accu.add inp.gen
          = .ok { st.accu with gens := st.accu.gens ++ [inp.gen] } := by
        unfold AccuSampleValDens.add
        have hcap1 := hc.1
        rw [if_pos (by omega)]
      have hok2 : st.stable_accu.add inp.gen.toValGen =
          .ok { st.stable_accu with gens := st.stable_accu.gens ++ [inp.gen.toValGen] } := by
        unfold AccuSampleVal.add
        have hm2 : inp.gen.toValGen.samples.length = m := hm
        have hcap2 := hc.2
        rw [if_pos (by omega)]
      rw [hok1, hok2]
      dsimp only
      by_cases hbad : (st.check_bad_grad (inp.m_score + st.temperature * inp.kl)
          inp.score_UQ).1 = true
      · rw [if_pos hbad]
        cases hsup : hist_suppr st.hist_log 1 with
        | error e =>
          intro hco
          have he := hist_suppr_error hsup
          subst he
          simp at hco
        | ok pr => intro hco; simp at hco
      · rw [if_neg hbad]
        by_cases hsh : inp.der_score.length = st.n_param ∧ inp.der_KL.length = st.n_param
        · rw [if_pos hsh]; intro hco; simp at hco
        · rw [if_neg hsh]; intro hco; simp at hco
  · intro st' w hok
    obtain ⟨m, a1, s1, hps, hadd, hadds, hw, hbr⟩ := GBupdate_ok_elim hok
    have hm : inp.gen.samples.length = m := hsz m hps
    have hmv : inp.gen.toValGen.samples.length = inp.gen.samples.length := rfl
    have hsum : (st.per_step.drop st.count).sum
        = m + (st.per_step.drop (st.count + 1)).sum := sum_drop_get? _ _ _ hps
    obtain ⟨hfa1, hta1, _⟩ := add_ok_fields hadd
    obtain ⟨hfs1, hts1, _⟩ := addv_ok_fields hadds
    have hcap1 := hc.1
    have hcap2 := hc.2
    rcases hbr with ⟨_, _, hst⟩ | ⟨_, _, _, hst⟩
    · subst hst
      obtain ⟨hra, hrs, hrc, hrp⟩ := rollbackCommit_fields st a1 s1
        (st.hist_log.drop (st.hist_log.length - 1))
        (st.hist_log.take (st.hist_log.length - 1))
      constructor
      · rw [hra, hrc, hrp]
        have h1 : (a1.suppr_gen 2).n_filled ≤ a1.n_filled := suppr_gen_n_filled_le a1 2
        have h2 : (a1.suppr_gen 2).n_tot = a1.n_tot := rfl
        rw [h2]
        omega
      · rw [hrs, hrc, hrp]
        omega
    · subst hst
      obtain ⟨hra, hrs, hrc, hrp⟩ := acceptCommit_fields st inp a1 s1
        (inp.m_score + st.temperature * inp.kl)
      constructor
      · rw [hra, hrc, hrp]
        omega
      · rw [hrs, hrc, hrp]
        omega

/-- A run of the robust engine from a state satisfying the capacity
invariant, fed generations of the scheduled sizes, never aborts with the
capacity-overflow error. -/
theorem runGB_no_overflow :
    ∀ (inps : List GBStepInput) (st : GradientBasedBayesSolver),
    CapInv st →
    (∀ t r m, inps.get? t = some r → st.per_step.get? (st.count + t) = some m →
      r.gen.samples.length = m) →
    runGB st inps ≠ .error .capacityOverflow := by
  intro inps
  induction inps with
  | nil =>
    intro st _ _ hc
    unfold runGB at hc
    cases hc
  | cons i is ih =>
    intro st hcap halign hc
    unfold runGB at hc
    have hsz : ∀ m, st.per_step.get? st.count = some m → i.gen.samples.length = m := by
      intro m hm
      exact halign 0 i m rfl (by simpa using hm)
    obtain ⟨hne, hpres⟩ := CapInv_update hcap hsz
    cases hu : st.update i with
    | error e =>
      rw [hu] at hc
      dsimp only at hc
      have he : e = SolverErr.capacityOverflow := by injection hc
      exact hne (by rw [hu, he])
    | ok pr =>
      rw [hu] at hc
      dsimp only at hc
      have hcap' := hpres pr.1 pr.2 (by rw [hu])
      have hfr := @GBupdate_ok_frame st pr.1 i pr.2 (by rw [hu])
      refine ih pr.1 hcap' ?_ hc
      intro t r m ht hm
      apply halign (t + 1) r m
      · simpa using ht
      · rw [hfr.2.1, hfr.2.2.1] at hm
        have harith : st.count + (t + 1) = st.count + 1 + t := by omega
        rw [harith]
        exact hm

/-- C8: at construction of the robust engine `set_up_accu` creates the
density-tracking accumulator with capacity exactly `sum(per_step)` when no
previous evaluations are supplied, and otherwise raises the supplied
accumulator's capacity by exactly `sum(per_step)` via `extend_memory` without
touching its contents; consequently a run fed generations of the scheduled
sizes never aborts with the capacity-overflow error, while an `add` that
would exceed capacity is the fatal `capacityOverflow` error rather than a
silent drop. -/
theorem C8_capacity (normPpf : ℚ → ℚ) (cfg : GBConfig) (inps : List GBStepInput)
    (hprev : ∀ A, cfg.prev_eval = some A → A.n_filled ≤ A.n_tot)
    (halign : ∀ t r m, inps.get? t = some r → cfg.per_step.get? t = some m →
      r.gen.samples.length = m) :
    (cfg.prev_eval = none →
      (GradientBasedBayesSolver.init normPpf cfg).accu =
        AccuSampleValDens.mk cfg.per_step.sum []) ∧
    (∀ A, cfg.prev_eval = some A →
      (GradientBasedBayesSolver.init normPpf cfg).accu = A.extend_memory cfg.per_step.sum ∧
      (A.extend_memory cfg.per_step.sum).n_tot = A.n_tot + cfg.per_step.sum ∧
      (A.extend_memory cfg.per_step.sum).gens = A.gens) ∧
    runGB (GradientBasedBayesSolver.init normPpf cfg) inps ≠ .error .capacityOverflow ∧
    (∀ (a : AccuSampleValDens) (g : DensGen),
      a.n_tot < a.n_filled + g.samples.length → a.add g = .error .capacityOverflow) := by
  have haccu : (GradientBasedBayesSolver.init normPpf cfg).accu
      = GradientBasedBayesSolver.set_up_accu cfg.per_step.sum cfg.prev_eval := rfl
  refine ⟨?_, ?_, ?_, ?_⟩
  · intro hnone
    rw [haccu, hnone]
    rfl
  · intro A hsome
    rw [haccu, hsome]
    exact ⟨rfl, rfl, rfl⟩
  · have hcap0 : CapInv (GradientBasedBayesSolver.init normPpf cfg) := by
      constructor
      · rw [haccu]
        cases hpe : cfg.prev_eval with
        | none =>
          show (0 : ℕ) + (cfg.per_step.drop 0).sum ≤ cfg.per_step.sum
          simp
        | some A =>
          have hA := hprev A hpe
          show A.n_filled + (cfg.per_step.drop 0).sum ≤ A.n_tot + cfg.per_step.sum
          simp only [List.drop_zero]
          omega
      · show (0 : ℕ) + (cfg.per_step.drop 0).sum ≤ cfg.per_step.sum
        simp
    refine runGB_no_overflow inps _ hcap0 ?_
    intro t r m ht hm
    refine halign t r m ht ?_
    have h0 : (GradientBasedBayesSolver.init normPpf cfg).count = 0 := rfl
    have h1 : (GradientBasedBayesSolver.init normPpf cfg).per_step = cfg.per_step := rfl
    rw [h1, h0] at hm
    simpa using hm
  · intro a g hlt
    unfold AccuSampleValDens.add
    rw [if_neg (by omega)]

/-- Witness for C8 on the concrete two-step run of `exCfg` (no previous
evaluations, generations of the scheduled sizes). -/
theorem C8_capacity_witness :
    (∀ A, exCfg.prev_eval = some A → A.n_filled ≤ A.n_tot) ∧
    exCfg.prev_eval = none ∧
    (GradientBasedBayesSolver.init ppfEx exCfg).accu =
      AccuSampleValDens.mk exCfg.per_step.sum [] ∧
    runGB (GradientBasedBayesSolver.init ppfEx exCfg) [exInpGood, exInpBad]
      ≠ .error .capacityOverflow := by
  have hprev : ∀ A, exCfg.prev_eval = some A → A.n_filled ≤ A.n_tot := by
    intro A hA
    cases hA
  have halign : ∀ t r m, ([exInpGood, exInpBad] : List GBStepInput).get? t = some r →
      exCfg.per_step.get? t = some m → r.gen.samples.length = m := by
    intro t r m ht hm
    match t with
    | 0 =>
      cases ht
      cases hm
      decide
    | 1 =>
      cases ht
      cases hm
      decide
    | (t' + 2) => cases ht
  obtain ⟨c1, c2, c3, c4⟩ := C8_capacity ppfEx exCfg [exInpGood, exInpBad] hprev halign
  exact ⟨hprev, rfl, c1 rfl, c3⟩

end ClaimProofs
